import Mathlib

/-!
Shallow embedding of the two cooperative board-game engines of the
repository (`pandemic` and `captain-is-dead`), with theorems settling
the specification claims.  Python `int` counters are modelled as `Int`,
decks as Lean lists kept in the Python list order (so a Python
`list.pop()` takes the last element and `list.pop(0)` the first), and
dictionaries keyed by display name as functions from the key type.
Randomness (`random.shuffle`, `random.choice`, `random.random`) is made
explicit: shuffles become permutation parameters and single draws become
oracle arguments.
-/

namespace Spec2Proof

/-- Code-point comparison of character lists (helper for `strLt`). -/
def charsLt : List Char → List Char → Bool
  | [], [] => false
  | [], _ :: _ => true
  | _ :: _, [] => false
  | c :: cs, d :: ds =>
    if c.toNat < d.toNat then true
    else if d.toNat < c.toNat then false
    else charsLt cs ds

/-- Lexicographic code-point order on strings, the order Python's `<`
uses when `sorted` compares names. -/
def strLt (a b : String) : Bool := charsLt a.data b.data

/-- Index of the first list element satisfying `p`, modelling the
`for x in xs: if cond(x): found = x; break` scan loops of the source. -/
def findFirstIdx {α : Type} (p : α → Bool) : List α → Option Nat
  | [] => none
  | x :: xs => if p x then some 0 else (findFirstIdx p xs).map (· + 1)

/-- Insert into a list sorted by a string key (helper for `sortByKey`). -/
def insertSortedBy {α : Type} (key : α → String) (x : α) : List α → List α
  | [] => [x]
  | y :: ys => if strLt (key x) (key y) then x :: y :: ys else y :: insertSortedBy key x ys

/-- Sorting by a string key: the canonical-order step the source applies
(`sorted(...)`, `list.sort()`) before every `random.choice`. -/
def sortByKey {α : Type} (key : α → String) : List α → List α
  | [] => []
  | x :: xs => insertSortedBy key x (sortByKey key xs)

/-- Replace the first list element satisfying `p`, modelling a Python
in-place mutation of an object found by scanning a list. -/
def updateFirst {α : Type} (p : α → Bool) (f : α → α) : List α → List α
  | [] => []
  | x :: xs => if p x then f x :: xs else x :: updateFirst p f xs

namespace Pandemic

/-- Disease colors, from `models.DiseaseColor`. -/
inductive Color where
  | blue
  | yellow
  | black
  | red
deriving DecidableEq, Repr

/-- Disease cure status, from `models.DiseaseStatus`. -/
inductive DiseaseStatus where
  | active
  | cured
  | eradicated
deriving DecidableEq, Repr

/-- Player roles, from `models.PlayerRole`. -/
inductive Role where
  | medic
  | scientist
  | researcher
  | operationsExpert
  | dispatcher
  | quarantineSpecialist
  | contingencyPlanner
deriving DecidableEq, Repr

/-- Iteration order of the per-color dictionaries (`disease_status`,
`disease_cubes`), which Python iterates in insertion order. -/
def colorList : List Color := [.blue, .yellow, .black, .red]

/-- The static board data: the city names present in `GameState.cities`
and the immutable `color` and `connections` fields of each `City`. -/
structure Registry where
  cityNames : List String
  conn : String → List String
  colorOf : String → Color

/-- `models.InfectionCard`. -/
structure InfectionCard where
  cityName : String
deriving DecidableEq, Repr

/-- `models.PlayerCard`. -/
structure PlayerCard where
  name : String
  isEpidemic : Bool := false
  isEvent : Bool := false
deriving DecidableEq, Repr

/-- `models.Player`: the fields read or written by the engine
(the received-message queue is presentation-only and unused by the
game rules). -/
structure Player where
  name : String
  role : Role
  location : String
  hand : List String
  actionPoints : Int
deriving DecidableEq, Repr

/-- The mutable snapshot, from `game_state.GameState`.  The per-city
cube counts and research-station flags stored inside the `City` objects
are split out as functions of the city name. -/
structure GameState where
  cubes : String → Color → Int
  stations : String → Bool
  supply : Color → Int
  status : Color → DiseaseStatus
  outbreaks : Int
  infectionRateIndex : Nat
  placedStations : Int
  totalStations : Int
  players : List Player
  currentPlayerIndex : Nat
  playerDeck : List PlayerCard
  playerDiscard : List PlayerCard
  infectionDeck : List InfectionCard
  infectionDiscard : List InfectionCard
  quietNight : Bool

/-- `GameState.infection_rates`. -/
def infectionRates : List Nat := [2, 2, 2, 3, 3, 4, 4]

/-- Point update of a per-city per-color cube table. -/
def updCube (f : String → Color → Int) (city : String) (col : Color) (v : Int) :
    String → Color → Int :=
  fun c k => if c = city ∧ k = col then v else f c k

/-- Point update of a per-color table. -/
def updColor (f : Color → Int) (col : Color) (v : Int) : Color → Int :=
  fun k => if k = col then v else f k

/-- `City.add_disease_cube`: returns `false` (an outbreak) instead of
placing a 4th cube, otherwise increments the count. -/
def cityAddCube (st : GameState) (city : String) (col : Color) : GameState × Bool :=
  if st.cubes city col ≥ 3 then (st, false)
  else ({ st with cubes := updCube st.cubes city col (st.cubes city col + 1) }, true)

/-- `City.remove_disease_cube`: returns `false` when no cube is
present, otherwise decrements the count. -/
def cityRemoveCube (st : GameState) (city : String) (col : Color) : GameState × Bool :=
  if st.cubes city col ≤ 0 then (st, false)
  else ({ st with cubes := updCube st.cubes city col (st.cubes city col - 1) }, true)

/-- `Game._add_disease_cube` together with the inlined
`Game._handle_outbreak`.  The `fuel` argument only bounds the recursion
depth (the Python recursion terminates because every nested call first
pushes the outbreak counter towards the hard stop at 8); all theorems
below either hold for every fuel or use a fuel visibly larger than the
recursion depth reached.  Note the faithful detail of the source: the
`outbreakChain` set is created afresh inside each outbreak with only the
outbreaking city in it and is not passed to the recursive calls. -/
def addDiseaseCube (reg : Registry) : Nat → GameState → String → Color → GameState × Bool
  | 0, st, _, _ => (st, false)
  | fuel + 1, st, city, col =>
    if st.status col = DiseaseStatus.eradicated then (st, true)
    else if st.supply col ≤ 0 then (st, false)
    else if st.cubes city col ≥ 3 then
      -- `_handle_outbreak`
      let st1 : GameState := { st with outbreaks := st.outbreaks + 1 }
      if st1.outbreaks ≥ 8 then (st1, false)
      else
        let outbreakChain : List String := [city]
        (reg.conn city).foldl
          (fun acc n =>
            if acc.2 = false then acc
            else if n ∈ outbreakChain then acc
            else addDiseaseCube reg fuel acc.1 n col)
          (st1, true)
    else
      ({ st with
          cubes := updCube st.cubes city col (st.cubes city col + 1)
          supply := updColor st.supply col (st.supply col - 1) }, true)

end Pandemic

/-- In-place update of the element at index `i` (no-op out of range),
modelling a Python mutation of `lst[i]`. -/
def updateAt {α : Type} : List α → Nat → (α → α) → List α
  | [], _, _ => []
  | x :: xs, 0, f => f x :: xs
  | x :: xs, n + 1, f => x :: updateAt xs n f

/-- Substring test, modelling the Python `pat in s` check on strings. -/
def containsSub (pat s : String) : Bool := (s.splitOn pat).length > 1

namespace Pandemic

/-- Placeholder for an out-of-range player lookup (the Python code
would raise; every theorem that needs the current player assumes the
turn pointer is in range). -/
def defaultPlayer : Player := ⟨"", .medic, "", [], 0⟩

/-- `GameState.get_current_player`. -/
def currentPlayer (st : GameState) : Player :=
  st.players.getD st.currentPlayerIndex defaultPlayer

/-- Replace the current player (a Python in-place mutation of the
object returned by `get_current_player`). -/
def setCurrentPlayer (st : GameState) (p : Player) : GameState :=
  { st with players := updateAt st.players st.currentPlayerIndex (fun _ => p) }

/-- `GameState.next_player_turn`: advance the pointer cyclically, then
reset the (incoming) player at the new index to 4 action points. -/
def nextPlayerTurn (st : GameState) : GameState :=
  let i := (st.currentPlayerIndex + 1) % st.players.length
  { st with
      currentPlayerIndex := i
      players := updateAt st.players i (fun p => { p with actionPoints := 4 }) }

/-- The cube-removal loops of `_apply_action`: both the Medic / cured
`for _ in range(count)` loop of `treat_disease` and the
`while city.disease_cubes[color] > 0` loop of the Medic auto-cleanup
remove every cube of `col` from `city` and return each to the supply. -/
def removeAllCubes (st : GameState) (city : String) (col : Color) : GameState :=
  if st.cubes city col > 0 then
    { st with
        cubes := updCube st.cubes city col 0
        supply := updColor st.supply col (st.supply col + st.cubes city col) }
  else st

/-- The Medic auto-cleanup run after every relocation: for every cured
color, strip that color's cubes from the destination city. -/
def medicAutoClear (st : GameState) (city : String) : GameState :=
  colorList.foldl
    (fun s col => if s.status col = DiseaseStatus.cured then removeAllCubes s city col else s)
    st

/-- Relocate the current player and, when they are the Medic, run the
auto-cleanup at the destination (the common tail of every movement
branch of `_apply_action`). -/
def finishMove (st : GameState) (dest : String) : GameState :=
  let p := currentPlayer st
  let st1 := setCurrentPlayer st { p with location := dest }
  if p.role = Role.medic then medicAutoClear st1 dest else st1

/-- `getattr(DiseaseColor, s.upper())`: the color named by an action
parameter, when valid. -/
def parseColor (s : String) : Option Color :=
  if s.toUpper = "BLUE" then some .blue
  else if s.toUpper = "YELLOW" then some .yellow
  else if s.toUpper = "BLACK" then some .black
  else if s.toUpper = "RED" then some .red
  else none

/-- The action intents understood by `Game._apply_action` that this
development embeds (`play_event` and `communicate` are not modelled;
an unrecognized `action_type` string is `unknownAction`).  A missing
string parameter (`None` in Python) is modelled as `""`, which the code
treats identically through its falsiness checks. -/
inductive PAction where
  | passTurn
  | move (destination : String) (movementType : String)
  | treatDisease (diseaseColor : String)
  | buildResearchStation (useOperationsExpert : Bool)
  | shareKnowledge (cardName : String) (playerName : String) (direction : String)
  | discoverCure (diseaseColor : String) (cardNames : List String)
  | unknownAction (actionType : String)
deriving DecidableEq, Repr

/-- The `move` branch of `Game._apply_action`. -/
def applyMove (reg : Registry) (st : GameState) (dest mt : String) : GameState × Bool :=
  let p := currentPlayer st
  if dest = "" then (st, false)
  else if dest ∉ reg.cityNames then (st, false)
  else if mt = "regular" then
    if dest ∉ reg.conn p.location then (st, false)
    else (finishMove st dest, true)
  else if mt = "direct_flight" then
    if dest ∉ p.hand then (st, false)
    else
      let st1 := setCurrentPlayer st { p with hand := p.hand.erase dest }
      let st1 := { st1 with playerDiscard := st1.playerDiscard ++ [⟨dest, false, false⟩] }
      (finishMove st1 dest, true)
  else if mt = "charter_flight" then
    if p.location ∉ p.hand then (st, false)
    else
      let st1 := setCurrentPlayer st { p with hand := p.hand.erase p.location }
      let st1 := { st1 with playerDiscard := st1.playerDiscard ++ [⟨p.location, false, false⟩] }
      (finishMove st1 dest, true)
  else if mt = "shuttle_flight" then
    if ¬ st.stations p.location then (st, false)
    else if ¬ st.stations dest then (st, false)
    else (finishMove st dest, true)
  else if mt = "operations_expert" then
    if p.role ≠ Role.operationsExpert then (st, false)
    else if ¬ st.stations p.location then (st, false)
    else
      match p.hand with
      | [] => (st, false)
      | cardToDiscard :: _ =>
        let st1 := setCurrentPlayer st { p with hand := p.hand.erase cardToDiscard }
        let st1 := { st1 with playerDiscard := st1.playerDiscard ++ [⟨cardToDiscard, false, false⟩] }
        (finishMove st1 dest, true)
  else (st, false)

/-- The `treat_disease` branch of `Game._apply_action`. -/
def applyTreat (st : GameState) (colorStr : String) : GameState × Bool :=
  if colorStr = "" then (st, false)
  else
    match parseColor colorStr with
    | none => (st, false)
    | some col =>
      let p := currentPlayer st
      let city := p.location
      if st.cubes city col ≤ 0 then (st, false)
      else
        let isCured := st.status col ≠ DiseaseStatus.active
        if p.role = Role.medic then (removeAllCubes st city col, true)
        else if isCured then (removeAllCubes st city col, true)
        else
          ({ st with
              cubes := updCube st.cubes city col (st.cubes city col - 1)
              supply := updColor st.supply col (st.supply col + 1) }, true)

/-- The `build_research_station` branch of `Game._apply_action`. -/
def applyBuild (st : GameState) (useOps : Bool) : GameState × Bool :=
  let p := currentPlayer st
  let city := p.location
  if st.stations city then (st, false)
  else if st.placedStations ≥ st.totalStations then (st, false)
  else if useOps ∧ p.role = Role.operationsExpert then
    ({ st with
        stations := fun c => if c = city then true else st.stations c
        placedStations := st.placedStations + 1 }, true)
  else if city ∉ p.hand then (st, false)
  else
    let st1 := setCurrentPlayer st { p with hand := p.hand.erase city }
    ({ st1 with
        playerDiscard := st1.playerDiscard ++ [⟨city, false, false⟩]
        stations := fun c => if c = city then true else st1.stations c
        placedStations := st1.placedStations + 1 }, true)

/-- The `share_knowledge` branch of `Game._apply_action`. -/
def applyShare (st : GameState) (cardName pname dir : String) : GameState × Bool :=
  if cardName = "" then (st, false)
  else if pname = "" then (st, false)
  else
    match findFirstIdx (fun q => q.name = pname) st.players with
    | none => (st, false)
    | some ti =>
      let p := currentPlayer st
      let target := st.players.getD ti defaultPlayer
      if p.location ≠ target.location then (st, false)
      else
        let isResearcher :=
          (p.role = Role.researcher ∧ dir = "give") ∨
          (target.role = Role.researcher ∧ dir ≠ "give")
        let giverIdx := if dir = "give" then st.currentPlayerIndex else ti
        let receiverIdx := if dir = "give" then ti else st.currentPlayerIndex
        let giver := st.players.getD giverIdx defaultPlayer
        if ¬ isResearcher ∧ cardName ≠ giver.location then (st, false)
        else if cardName ∉ giver.hand then (st, false)
        else
          let st1 :=
            { st with players :=
                updateAt st.players giverIdx (fun q => { q with hand := q.hand.erase cardName }) }
          let st2 :=
            { st1 with players :=
                updateAt st1.players receiverIdx (fun q => { q with hand := q.hand ++ [cardName] }) }
          (st2, true)

/-- The `discover_cure` branch of `Game._apply_action`. -/
def applyCure (reg : Registry) (st : GameState) (colorStr : String)
    (cardNames : List String) : GameState × Bool :=
  if colorStr = "" then (st, false)
  else
    match parseColor colorStr with
    | none => (st, false)
    | some col =>
      let p := currentPlayer st
      if st.status col ≠ DiseaseStatus.active then (st, false)
      else if ¬ st.stations p.location then (st, false)
      else
        let required : Nat := if p.role = Role.scientist then 4 else 5
        if cardNames.length < required then (st, false)
        else if ¬ (∀ c ∈ cardNames, c ∈ p.hand) then (st, false)
        else if ¬ (∀ c ∈ cardNames, c ∈ reg.cityNames → reg.colorOf c = col) then (st, false)
        else
          let st1 := setCurrentPlayer st
            { p with hand := cardNames.foldl (fun h c => h.erase c) p.hand }
          let st1 := { st1 with
            playerDiscard := st1.playerDiscard ++
              cardNames.map (fun c => ({ name := c } : PlayerCard)) }
          let st1 := { st1 with
            status := fun k => if k = col then DiseaseStatus.cured else st1.status k }
          let st2 := (List.range st1.players.length).foldl
            (fun s i =>
              let q := s.players.getD i defaultPlayer
              if q.role = Role.medic then removeAllCubes s q.location col else s)
            st1
          (st2, true)

/-- `Game._apply_action` for the embedded intents: validates the
preconditions of the intent, applies its mutation, and reports the
success flag (the returned message strings are not modelled). -/
def applyAction (reg : Registry) (st : GameState) (a : PAction) : GameState × Bool :=
  match a with
  | .passTurn => (st, true)
  | .move dest mt => applyMove reg st dest mt
  | .treatDisease cs => applyTreat st cs
  | .buildResearchStation useOps => applyBuild st useOps
  | .shareKnowledge card pname dir => applyShare st card pname dir
  | .discoverCure cs cards => applyCure reg st cs cards
  | .unknownAction _ => (st, false)

/-- One iteration of the action loop of `Game.play_turn`: resolve the
intent, then charge one action point exactly when it succeeded. -/
def actionStep (reg : Registry) (st : GameState) (a : PAction) : GameState × Bool :=
  let r := applyAction reg st a
  if r.2 then
    let charged := updateAt r.1.players r.1.currentPlayerIndex
      (fun p => { p with actionPoints := p.actionPoints - 1 })
    ({ r.1 with players := charged }, true)
  else (r.1, false)

/-- The epidemic block of `Game.play_turn`: advance the infection-rate
index (capped), infect the bottom infection card's city with 3 cubes of
its own color, then shuffle the infection discard and prepend it to the
infection-deck list.  `shuffleI` stands for `random.shuffle`. -/
def epidemicStep (reg : Registry) (shuffleI : List InfectionCard → List InfectionCard)
    (fuel : Nat) (st : GameState) : GameState :=
  let st := { st with
    infectionRateIndex := min (st.infectionRateIndex + 1) (infectionRates.length - 1) }
  let st :=
    match st.infectionDeck.head? with
    | none => st
    | some c =>
      let st := { st with infectionDeck := st.infectionDeck.tail }
      let city := c.cityName
      let col := reg.colorOf city
      let st := (List.range 3).foldl (fun s _ => (addDiseaseCube reg fuel s city col).1) st
      { st with infectionDiscard := st.infectionDiscard ++ [c] }
  { st with
      infectionDeck := shuffleI st.infectionDiscard ++ st.infectionDeck
      infectionDiscard := [] }

/-- The outcome of drawing one player card in the draw phase. -/
inductive DrawResult where
  | deckEmpty
  | epidemic
  | drew (name : String)
deriving DecidableEq, Repr

/-- One of the two player-card draws of `Game.play_turn`: an empty deck
means immediate defeat, an Epidemic card runs `epidemicStep`, any other
card joins the hand, discarding the oldest card over the 7-card limit. -/
def drawPlayerCardStep (reg : Registry) (shuffleI : List InfectionCard → List InfectionCard)
    (fuel : Nat) (st : GameState) : GameState × DrawResult :=
  match st.playerDeck.getLast? with
  | none => (st, .deckEmpty)
  | some card =>
    let st := { st with playerDeck := st.playerDeck.dropLast }
    if card.isEpidemic then
      (epidemicStep reg shuffleI fuel st, .epidemic)
    else
      let p := currentPlayer st
      let st1 := setCurrentPlayer st { p with hand := p.hand ++ [card.name] }
      let p1 := currentPlayer st1
      if 7 < p1.hand.length then
        match p1.hand.head? with
        | none => (st1, .drew card.name)
        | some discardName =>
          let st2 := setCurrentPlayer st1 { p1 with hand := p1.hand.erase discardName }
          ({ st2 with playerDiscard :=
              st2.playerDiscard ++ [⟨discardName, false, containsSub "Event:" discardName⟩] },
            .drew card.name)
      else (st1, .drew card.name)

/-- One iteration of the `_infect_cities` loop: reshuffle the discard
into the deck when the deck is out, then draw the top infection card and
add one cube of that city's own color; the flag is `false` when no card
could be drawn (the loop breaks). -/
def infectOne (reg : Registry) (shuffleI : List InfectionCard → List InfectionCard)
    (fuel : Nat) (st : GameState) : GameState × Bool :=
  let st :=
    if st.infectionDeck.isEmpty ∧ ¬ st.infectionDiscard.isEmpty then
      { st with infectionDeck := shuffleI st.infectionDiscard, infectionDiscard := [] }
    else st
  match st.infectionDeck.getLast? with
  | none => (st, false)
  | some card =>
    let st := { st with infectionDeck := st.infectionDeck.dropLast }
    let st := (addDiseaseCube reg fuel st card.cityName (reg.colorOf card.cityName)).1
    ({ st with infectionDiscard := st.infectionDiscard ++ [card] }, true)

/-- `Game._infect_cities`: draw infection-rate many cards. -/
def infectCities (reg : Registry) (shuffleI : List InfectionCard → List InfectionCard)
    (fuel : Nat) (st : GameState) : GameState :=
  ((List.range (infectionRates.getD st.infectionRateIndex 0)).foldl
    (fun acc _ =>
      if acc.2 = false then acc
      else infectOne reg shuffleI fuel acc.1)
    (st, true)).1

/-- The action points of the current player. -/
def curAP (st : GameState) : Int := (currentPlayer st).actionPoints

/-- Total number of player cards in the deck, the discard pile and all
hands, the quantity the deck-conservation property counts. -/
def totalPlayerCards (st : GameState) : Nat :=
  st.playerDeck.length + st.playerDiscard.length +
    (st.players.map (fun p => p.hand.length)).sum

/-- Total number of infection cards in the deck and the discard pile. -/
def totalInfectionCards (st : GameState) : Nat :=
  st.infectionDeck.length + st.infectionDiscard.length

/-- Number of cubes of one color on the whole board. -/
def boardSum (reg : Registry) (st : GameState) (col : Color) : Int :=
  (reg.cityNames.map (fun c => st.cubes c col)).sum

/-- The cube-conservation invariant: per color, supply plus cubes on
the board equals the fixed total of 24. -/
def cubesConserved (reg : Registry) (st : GameState) : Prop :=
  ∀ col, st.supply col + boardSum reg st col = 24

/-- Registry well-formedness: city names are distinct and adjacency
never leaves the board (the source's `cities` dictionary satisfies
both). -/
def RegistryWF (reg : Registry) : Prop :=
  reg.cityNames.Nodup ∧ ∀ c ∈ reg.cityNames, ∀ d ∈ reg.conn c, d ∈ reg.cityNames

/-- Per-city per-color cube bounds, the invariant the claims call
`0 ≤ cubes ≤ 3`. -/
def cubesInRange (st : GameState) : Prop :=
  ∀ c col, 0 ≤ st.cubes c col ∧ st.cubes c col ≤ 3

end Pandemic

namespace CID

/-- `models.SystemStatus`. -/
inductive SystemStatus where
  | online
  | offline
  | damaged
deriving DecidableEq, Repr

/-- `models.Location`. -/
inductive Location where
  | bridge
  | engineering
  | weaponsBay
  | scienceLab
  | teleporter
  | sickBay
  | commCenter
  | holodeck
deriving DecidableEq, Repr

/-- The `value` strings of `models.Location`. -/
def locationKey : Location → String
  | .bridge => "Bridge"
  | .engineering => "Engineering"
  | .weaponsBay => "Weapons Bay"
  | .scienceLab => "Science Lab"
  | .teleporter => "Teleporter"
  | .sickBay => "Sick Bay"
  | .commCenter => "Communications Center"
  | .holodeck => "Holodeck"

/-- `list(Location)`: enum declaration order. -/
def locationList : List Location :=
  [.bridge, .engineering, .weaponsBay, .scienceLab, .teleporter, .sickBay, .commCenter, .holodeck]

/-- The `for loc in Location: if loc.value == s` lookup of `play_turn`. -/
def parseLocation (s : String) : Option Location :=
  locationList.find? (fun loc => locationKey loc = s)

/-- `models.SkillType`. -/
inductive SkillType where
  | tactical
  | engineering
  | science
  | medical
  | leadership
deriving DecidableEq, Repr

/-- The `value` strings of `models.SkillType`. -/
def skillKey : SkillType → String
  | .tactical => "Tactical"
  | .engineering => "Engineering"
  | .science => "Science"
  | .medical => "Medical"
  | .leadership => "Leadership"

/-- `list(SkillType)`: enum declaration order. -/
def skillList : List SkillType :=
  [.tactical, .engineering, .science, .medical, .leadership]

/-- `models.CharacterRole`. -/
inductive CharacterRole where
  | captain
  | engineer
  | scienceOfficer
  | tacticalOfficer
  | medicalOfficer
  | communicationsOfficer
deriving DecidableEq, Repr

/-- `models.AlertLevel`. -/
inductive AlertLevel where
  | yellow
  | orange
  | red
deriving DecidableEq, Repr

/-- `models.Threat` (the unused `active` flag is omitted). -/
structure Threat where
  name : String
  description : String
  difficulty : Int
deriving DecidableEq, Repr

/-- `models.Character`. -/
structure Character where
  name : String
  role : CharacterRole
  skills : SkillType → Int
  specialAbility : String
  location : Location
  actionPoints : Int

/-- `models.CrisisCard`. -/
structure CrisisCard where
  name : String
  description : String
  effectType : String
  severity : Int
deriving DecidableEq, Repr

/-- The keys of the `GameState.systems` dictionary. -/
inductive SystemName where
  | jumpCore
  | shields
  | sensors
  | teleporter
  | lifeSupport
  | targetingComputer
  | holodeck
deriving DecidableEq, Repr

/-- The key strings of `GameState.systems`. -/
def systemKey : SystemName → String
  | .jumpCore => "Jump Core"
  | .shields => "Shields"
  | .sensors => "Sensors"
  | .teleporter => "Teleporter"
  | .lifeSupport => "Life Support"
  | .targetingComputer => "Targeting Computer"
  | .holodeck => "Holodeck"

/-- Insertion order of the `GameState.systems` dictionary. -/
def systemList : List SystemName :=
  [.jumpCore, .shields, .sensors, .teleporter, .lifeSupport, .targetingComputer, .holodeck]

/-- The `s in self.game_state.systems` membership test plus key lookup. -/
def parseSystem (s : String) : Option SystemName :=
  systemList.find? (fun sys => systemKey sys = s)

/-- `game_state.GameState` for the Captain-is-Dead engine. -/
structure GameState where
  systems : SystemName → SystemStatus
  alertLevel : AlertLevel
  jumpCoreProgress : Int
  activeThreats : List Threat
  characters : List Character
  currentCharacterIndex : Nat
  crisisDeck : List CrisisCard
  crisisDiscard : List CrisisCard
  lastCrisis : Option CrisisCard

/-- Point update of the systems table. -/
def updSys (f : SystemName → SystemStatus) (s : SystemName) (v : SystemStatus) :
    SystemName → SystemStatus :=
  fun x => if x = s then v else f x

/-- Point update of a skills table. -/
def updSkill (f : SkillType → Int) (s : SkillType) (v : Int) : SkillType → Int :=
  fun x => if x = s then v else f x

/-- Placeholder for an out-of-range character lookup (the Python code
would raise; theorems that need the current character assume the turn
pointer is in range). -/
def defaultCharacter : Character :=
  ⟨"", .captain, fun _ => 0, "", .bridge, 0⟩

/-- Placeholder threat for a guarded-nonempty `random.choice`. -/
def defaultThreat : Threat := ⟨"", "", 0⟩

/-- `GameState.get_current_character`. -/
def currentCharacter (st : GameState) : Character :=
  st.characters.getD st.currentCharacterIndex defaultCharacter

/-- In-place mutation of the current character. -/
def modifyCurrentCharacter (st : GameState) (f : Character → Character) : GameState :=
  { st with characters := updateAt st.characters st.currentCharacterIndex f }

/-- `GameState.next_character_turn`: reset the character at the current
index to 4 action points, then advance the pointer cyclically. -/
def nextCharacterTurn (st : GameState) : GameState :=
  let st := modifyCurrentCharacter st (fun c => { c with actionPoints := 4 })
  { st with currentCharacterIndex := (st.currentCharacterIndex + 1) % st.characters.length }

/-- The action-point baseline fixed at setup for a difficulty string:
`Character.__init__` sets 4, then `setup_game` overwrites it with 5 on
easy and 3 on hard. -/
def setupActionPoints (difficulty : String) : Int :=
  if difficulty = "easy" then 5 else if difficulty = "hard" then 3 else 4

/-- `GameState.is_game_over`: win first, then the lose conditions in
source order. -/
def isGameOver (st : GameState) : Bool × String :=
  if st.jumpCoreProgress ≥ 5 then
    (true, "Victory! The jump core has been fully repaired and the ship has escaped.")
  else if st.systems .lifeSupport = .offline then
    (true, "Defeat! Life Support has gone offline.")
  else if st.systems .shields = .offline then
    (true, "Defeat! Shields has gone offline.")
  else if st.alertLevel = .red ∧ st.activeThreats.length > 3 then
    (true, "Defeat! The ship has been overwhelmed by threats during Red Alert.")
  else (false, "")

/-- The explicit random draws of one engine step: `pick` and `pick2`
stand for the first and second `random.choice` of a crisis resolution
(as an index into the canonically sorted candidate list), `pick` also
for the single choice of a `use_system` action, and `roll` for the
`random.random()` battle draw. -/
structure Oracle where
  pick : Nat
  pick2 : Nat
  roll : ℚ

/-- The `sorted(..., key=lambda t: t.name)` ordering of threats. -/
def sortThreats (l : List Threat) : List Threat := sortByKey (fun t => t.name) l

/-- `sorted` location and skill candidate lists of `use_system`. -/
def sortedLocations : List Location := sortByKey locationKey locationList

/-- The skill candidates of the Holodeck effect, sorted by value. -/
def sortedSkills : List SkillType := sortByKey skillKey skillList

/-- The action intents processed by the action loop of
`Game.play_turn` (the `skip`, `end_turn` and `text_response` intents
break or continue the loop before this step and are not part of it). -/
inductive CIDAction where
  | move (destination : String)
  | repair (system : String)
  | useSystem (system : String)
  | battle (threat : String)
  | unknown (actionType : String)
deriving DecidableEq, Repr

/-- `alert_level` escalation (`YELLOW` to `ORANGE`, `ORANGE` to `RED`). -/
def escalateAlert : AlertLevel → AlertLevel
  | .yellow => .orange
  | .orange => .red
  | .red => .red

/-- The Shields / Targeting Computer effect on the picked threat
object: `difficulty = max(1, difficulty - 1)`, applied in place to the
first list element equal to the pick. -/
def weakenFirst (l : List Threat) (t : Threat) : List Threat :=
  updateFirst (fun th => th = t)
    (fun th => { th with difficulty := max 1 (th.difficulty - 1) }) l

/-- The failed-battle effect on the threat at index `k`:
`difficulty += 1`, in place. -/
def strengthenAt (l : List Threat) (k : Nat) : List Threat :=
  updateAt l k (fun th => { th with difficulty := th.difficulty + 1 })

/-- The `min(0.9, 0.5 + (skill - difficulty) * 0.2)` success chance of
a battle. -/
def battleChance (skill difficulty : Int) : ℚ :=
  min 0.9 (0.5 + ((skill - difficulty : Int) : ℚ) * 0.2)

/-- One iteration of the action loop of `Game.play_turn` for an action
intent: resolve the intent against the state, then charge 1 action
point from the loop's running budget — both failed and executed actions
cost 1 (`action_cost`), and Life Support adds a point before the charge.
Returns the new state, the new running budget, and `action_executed`. -/
def cidStep (st : GameState) (apRem : Int) (a : CIDAction) (o : Oracle) :
    GameState × Int × Bool :=
  let cur := currentCharacter st
  let r : GameState × Int × Bool :=
    match a with
    | .move dest =>
      match parseLocation dest with
      | some loc =>
        (modifyCurrentCharacter st (fun c => { c with location := loc }), apRem, true)
      | none => (st, apRem, false)
    | .repair sysStr =>
      match parseSystem sysStr with
      | none => (st, apRem, false)
      | some sys =>
        if st.systems sys = .online then (st, apRem, false)
        else
          let eng := cur.skills .engineering
          if sys = SystemName.jumpCore then
            if eng ≥ 2 then
              let st := { st with jumpCoreProgress := st.jumpCoreProgress + 1 }
              let st :=
                if st.jumpCoreProgress ≥ 5 then
                  { st with systems := updSys st.systems .jumpCore .online }
                else st
              (st, apRem, true)
            else (st, apRem, false)
          else
            if eng ≥ 1 then
              match st.systems sys with
              | .damaged => ({ st with systems := updSys st.systems sys .online }, apRem, true)
              | .offline => ({ st with systems := updSys st.systems sys .damaged }, apRem, true)
              | .online => (st, apRem, false)
            else (st, apRem, false)
    | .useSystem sysStr =>
      match parseSystem sysStr with
      | none => (st, apRem, false)
      | some sys =>
        if st.systems sys = .offline then (st, apRem, false)
        else
          match sys with
          | .shields =>
            if st.activeThreats.isEmpty then (st, apRem, true)
            else
              let sorted := sortThreats st.activeThreats
              let t := sorted.getD (o.pick % sorted.length) defaultThreat
              ({ st with activeThreats := weakenFirst st.activeThreats t }, apRem, true)
          | .sensors => (st, apRem, true)
          | .teleporter =>
            let newLoc := sortedLocations.getD (o.pick % sortedLocations.length) .bridge
            (modifyCurrentCharacter st (fun c => { c with location := newLoc }), apRem, true)
          | .targetingComputer =>
            if st.activeThreats.isEmpty then (st, apRem, true)
            else
              let sorted := sortThreats st.activeThreats
              let t := sorted.getD (o.pick % sorted.length) defaultThreat
              ({ st with activeThreats := weakenFirst st.activeThreats t }, apRem, true)
          | .holodeck =>
            let sk := sortedSkills.getD (o.pick % sortedSkills.length) .tactical
            (modifyCurrentCharacter st
              (fun c => { c with skills := updSkill c.skills sk (min 5 (c.skills sk + 1)) }),
              apRem, true)
          | .lifeSupport =>
            (modifyCurrentCharacter st
              (fun c => { c with actionPoints := c.actionPoints + 1 }),
              apRem + 1, true)
          | .jumpCore => (st, apRem, true)
    | .battle threatName =>
      match findFirstIdx (fun t => t.name = threatName) st.activeThreats with
      | none => (st, apRem, false)
      | some k =>
        let t := st.activeThreats.getD k defaultThreat
        let tactical := cur.skills .tactical
        if tactical ≥ t.difficulty - 1 then
          if o.roll < battleChance tactical t.difficulty then
            ({ st with activeThreats := st.activeThreats.eraseIdx k }, apRem, true)
          else
            ({ st with activeThreats := strengthenAt st.activeThreats k }, apRem, true)
        else (st, apRem, false)
    | .unknown _ => (st, apRem, false)
  (r.1, r.2.1 - 1, r.2.2)

/-- One system-damage hit of `resolve_crisis`: `ONLINE` to `DAMAGED`,
`DAMAGED` to `OFFLINE`; only the primary (non-amplified) hit escalates
the alert level when it takes the Shields fully offline. -/
def damageSystem (st : GameState) (sys : SystemName) (withAlert : Bool) : GameState :=
  match st.systems sys with
  | .online => { st with systems := updSys st.systems sys .damaged }
  | .damaged =>
    let st := { st with systems := updSys st.systems sys .offline }
    if withAlert ∧ sys = SystemName.shields ∧ st.alertLevel ≠ .red then
      { st with alertLevel := escalateAlert st.alertLevel }
    else st
  | .offline => st

/-- The `system_damage` effect: pick among the non-offline systems
other than the Jump Core, in sorted key order. -/
def crisisSystemDamage (st : GameState) (pick : Nat) (withAlert : Bool) : GameState :=
  let avail := sortByKey systemKey
    (systemList.filter (fun s => st.systems s ≠ .offline ∧ s ≠ .jumpCore))
  if avail.isEmpty then st
  else damageSystem st (avail.getD (pick % avail.length) .jumpCore) withAlert

/-- The fixed `new_threat` candidate pool of `resolve_crisis`. -/
def potentialThreats : List Threat :=
  [⟨"Alien Saboteur", "An alien has infiltrated the ship", 3⟩,
   ⟨"Power Fluctuation", "Ship's power is unstable", 2⟩,
   ⟨"Hull Breach", "The ship's hull has been breached", 4⟩,
   ⟨"Navigation Error", "Ship's navigation is malfunctioning", 2⟩]

/-- One threat choice from the sorted candidate pool. -/
def pickThreat (pick : Nat) : Threat :=
  let sorted := sortThreats potentialThreats
  sorted.getD (pick % sorted.length) defaultThreat

/-- The `action_restriction` effect: every character loses one action
point, floored at 1. -/
def restrictAll (chars : List Character) : List Character :=
  chars.map (fun c => { c with actionPoints := max 1 (c.actionPoints - 1) })

/-- The red-alert escalation: every active threat gains 1 difficulty. -/
def strengthenAll (l : List Threat) : List Threat :=
  l.map (fun t => { t with difficulty := t.difficulty + 1 })

/-- `Game.resolve_crisis`: the keyed main effect, the amplification when
the Shields are offline, and the red-alert escalation of every threat. -/
def resolveCrisis (crisis : CrisisCard) (o : Oracle) (st : GameState) : GameState :=
  let st :=
    if crisis.effectType = "system_damage" then
      crisisSystemDamage st o.pick true
    else if crisis.effectType = "new_threat" then
      if st.activeThreats.length < 4 then
        { st with activeThreats := st.activeThreats ++ [pickThreat o.pick] }
      else { st with alertLevel := escalateAlert st.alertLevel }
    else if crisis.effectType = "action_restriction" then
      { st with characters := restrictAll st.characters }
    else st
  let st :=
    if st.systems .shields = .offline then
      if crisis.effectType = "system_damage" then
        crisisSystemDamage st o.pick2 false
      else if crisis.effectType = "new_threat" ∧ st.activeThreats.length < 4 then
        { st with activeThreats := st.activeThreats ++ [pickThreat o.pick2] }
      else if crisis.effectType = "action_restriction" then
        { st with characters := restrictAll st.characters }
      else st
    else st
  if st.alertLevel = .red then
    { st with activeThreats := strengthenAll st.activeThreats }
  else st

/-- The default card synthesized by `draw_crisis_card` when the deck and
the discard pile are both empty. -/
def defaultCrisis : CrisisCard :=
  ⟨"Emergency Alert", "Ship systems are failing.", "system_damage", 2⟩

/-- `Game.draw_crisis_card`: reshuffle the discard into the deck when
the deck is out, synthesize `defaultCrisis` when both are empty, then
draw the front card, discard it and resolve it.  `shuffleC` stands for
`random.shuffle`. -/
def drawCrisisCard (shuffleC : List CrisisCard → List CrisisCard) (o : Oracle)
    (st : GameState) : GameState :=
  let st :=
    if st.crisisDeck.isEmpty ∧ ¬ st.crisisDiscard.isEmpty then
      { st with crisisDeck := shuffleC st.crisisDiscard, crisisDiscard := [] }
    else st
  let st :=
    if st.crisisDeck.isEmpty then { st with crisisDeck := [defaultCrisis] }
    else st
  match st.crisisDeck with
  | [] => st
  | crisis :: rest =>
    let st := { st with
      crisisDeck := rest
      lastCrisis := some crisis
      crisisDiscard := st.crisisDiscard ++ [crisis] }
    resolveCrisis crisis o st

/-- Overwrite the current character's location, leaving everything else
in place. -/
def setCurLoc (st : GameState) (l : Location) : GameState :=
  modifyCurrentCharacter st (fun c => { c with location := l })

/-- The intents whose resolution never reads the acting character's
location: repair, use_system and battle. -/
def isLocFree : CIDAction → Bool
  | .repair _ => true
  | .useSystem _ => true
  | .battle _ => true
  | _ => false

/-- Total number of crisis cards in the deck and the discard pile. -/
def totalCrisisCards (st : GameState) : Nat :=
  st.crisisDeck.length + st.crisisDiscard.length

end CID

/-! ## Concrete fixtures -/

/-- A two-city board forming a 2-cycle, both cities blue. -/
def twoCityReg : Pandemic.Registry where
  cityNames := ["A", "B"]
  conn := fun c => if c = "A" then ["B"] else if c = "B" then ["A"] else []
  colorOf := fun _ => .blue

/-- Both cities of `twoCityReg` already hold 3 blue cubes (6 of the 24
blue cubes are on the board). -/
def twoCitySt : Pandemic.GameState where
  cubes := fun c _ => if c = "A" ∨ c = "B" then 3 else 0
  stations := fun _ => false
  supply := fun _ => 18
  status := fun _ => .active
  outbreaks := 0
  infectionRateIndex := 0
  placedStations := 0
  totalStations := 6
  players := []
  currentPlayerIndex := 0
  playerDeck := []
  playerDiscard := []
  infectionDeck := []
  infectionDiscard := []
  quietNight := false

/-- Three isolated blue cities, used by the epidemic evaluation. -/
def threeCityReg : Pandemic.Registry where
  cityNames := ["A", "B", "C"]
  conn := fun _ => []
  colorOf := fun _ => .blue

/-- State before an Epidemic resolution: infection deck `[A, B]` (list
front = bottom of the deck, draws pop the back), discard `[C]`. -/
def epidemicSt : Pandemic.GameState :=
  { twoCitySt with
      cubes := fun _ _ => 0
      supply := fun _ => 24
      infectionDeck := [⟨"A"⟩, ⟨"B"⟩]
      infectionDiscard := [⟨"C"⟩] }

/-- The initial `GameState.systems` table of the Captain-is-Dead
engine: every system online except the Jump Core. -/
def initialSystems : CID.SystemName → CID.SystemStatus :=
  fun s => if s = .jumpCore then .offline else .online

/-- Character fixture helper. -/
def mkChar (name : String) (role : CID.CharacterRole) (skills : CID.SkillType → Int)
    (loc : CID.Location) (ap : Int) : CID.Character :=
  ⟨name, role, skills, "", loc, ap⟩

/-- A state reachable in an easy-difficulty Captain-is-Dead run (setup
baseline 5): character 0 has spent all action points, character 1 has
lost points to `action_restriction` crises. -/
def c3St : CID.GameState where
  systems := initialSystems
  alertLevel := .yellow
  jumpCoreProgress := 0
  activeThreats := []
  characters :=
    [mkChar "Alex Chen" .engineer (fun s => if s = .engineering then 3 else 1) .engineering 0,
     mkChar "Dr. Maya Patel" .scienceOfficer (fun s => if s = .science then 3 else 1) .scienceLab 2]
  currentCharacterIndex := 0
  crisisDeck := []
  crisisDiscard := []
  lastCrisis := none

/-- A pandemic state with two players, both in city A. -/
def pandTwoPlayerSt : Pandemic.GameState :=
  { twoCitySt with
      cubes := fun _ _ => 0
      supply := fun _ => 24
      players :=
        [⟨"Player 1", .scientist, "A", ["A"], 4⟩,
         ⟨"Player 2", .medic, "A", [], 4⟩]
      currentPlayerIndex := 0
      playerDeck := [⟨"B", false, false⟩] }

/-- An all-zero oracle. -/
def oZero : CID.Oracle := ⟨0, 0, 0⟩

namespace Pandemic

/-- Action-resolver frame: player-list length, turn pointer and the
current player's action points. -/
def Frame (st' st : GameState) : Prop :=
  st'.players.length = st.players.length ∧
  st'.currentPlayerIndex = st.currentPlayerIndex ∧
  curAP st' = curAP st

end Pandemic

/-- State with one strong threat (difficulty 4) for the refused-battle
branch. -/
def c8StrongSt : CID.GameState :=
  { c3St with activeThreats := [⟨"Hull Breach", "The ship's hull has been breached", 4⟩] }

/-- State with one weak threat (difficulty 2) for the attempted-battle
branch. -/
def c8WeakSt : CID.GameState :=
  { c3St with activeThreats := [⟨"Power Fluctuation", "Ship's power is unstable", 2⟩] }

/-- A two-player Pandemic state whose player deck holds a single
Epidemic card (one further card is in a hand: 2 player cards total). -/
def c4EpiSt : Pandemic.GameState :=
  { pandTwoPlayerSt with
      playerDeck := [{ name := "Epidemic", isEpidemic := true, isEvent := false }] }

/-! ## Helper lemmas -/

theorem updateAt_length {α : Type} (l : List α) (i : Nat) (f : α → α) :
    (updateAt l i f).length = l.length := by
  induction l generalizing i with
  | nil => rfl
  | cons x xs ih =>
    cases i with
    | zero => rfl
    | succ n => simp [updateAt, ih]

theorem getD_updateAt_eq {α : Type} (l : List α) (i : Nat) (f : α → α) (d : α)
    (h : i < l.length) :
    (updateAt l i f).getD i d = f (l.getD i d) := by
  induction l generalizing i with
  | nil => simp at h
  | cons x xs ih =>
    cases i with
    | zero => rfl
    | succ n => simpa [updateAt] using ih n (by simpa using h)

theorem getD_updateAt_ne {α : Type} (l : List α) (i j : Nat) (f : α → α) (d : α)
    (h : j ≠ i) :
    (updateAt l i f).getD j d = l.getD j d := by
  induction l generalizing i j with
  | nil => rfl
  | cons x xs ih =>
    cases i with
    | zero =>
      cases j with
      | zero => exact absurd rfl h
      | succ m => rfl
    | succ n =>
      cases j with
      | zero => rfl
      | succ m => simpa [updateAt] using ih n m (fun hh => h (by rw [hh]))

theorem updateAt_of_length_le {α : Type} (l : List α) (i : Nat) (f : α → α)
    (h : l.length ≤ i) : updateAt l i f = l := by
  induction l generalizing i with
  | nil => rfl
  | cons x xs ih =>
    cases i with
    | zero => simp at h
    | succ n => simp [updateAt, ih n (by simpa using h)]

theorem foldlPreserve {α β : Type} (P : β → Prop) (f : β → α → β) :
    ∀ (l : List α) (b : β), P b → (∀ b x, x ∈ l → P b → P (f b x)) →
      P (l.foldl f b)
  | [], b, hb, _ => hb
  | x :: xs, b, hb, hstep =>
    foldlPreserve P f xs (f b x) (hstep b x (by simp) hb)
      (fun b' y hy => hstep b' y (by simp [hy]))


/-! ## Claims C1, C2, C3 -/

/-- C1.  In the code, the visited set of an outbreak cascade is NOT
shared across the cascade: `_handle_outbreak` creates `outbreak_chain`
afresh per call, holding only the city currently outbreaking, and never
passes it to the recursive `_add_disease_cube` calls.  Evaluating the
embedded cascade on a 2-cycle of cities that both hold 3 cubes: the
chain bounces A, B, A, B, ... and the outbreak counter climbs from 0 all
the way to the terminal 8, although only 2 distinct cities ever receive
a 4th-cube event.  The claim (each city touched at most once; counter
increased by exactly the number of distinct 4th-cube events) is what the
comment in `_handle_outbreak` promises, and the code does not do it. -/
theorem C1_outbreak_cascade_eval :
    twoCityReg.cityNames.length = 2 ∧
    twoCitySt.outbreaks = 0 ∧
    (Pandemic.addDiseaseCube twoCityReg 100 twoCitySt "A" .blue).1.outbreaks = 8 := by
  decide

/-- C2.  Evaluation of the embedded Epidemic resolution at `epidemicSt`
with the identity permutation as the shuffle.  Parts (1) and (2) of the
claim hold: the infection-rate index advances by one and the bottom
card's city A receives 3 cubes of its own color through the shared
cube-addition logic.  Part (3) fails: the code runs
`infection_deck = shuffled_discard + infection_deck`, which places the
reshuffled cards `[C, A]` at the FRONT of the list, while infection
draws pop from the BACK — so the next infection draw takes `B`, a card
that was already in the deck, before any reshuffled card, contrary to
the claim (and to the code's own comment about putting the reshuffled
pile on top). -/
theorem C2_epidemic_intensify_eval :
    (Pandemic.epidemicStep threeCityReg id 10 epidemicSt).infectionRateIndex = 1 ∧
    (Pandemic.epidemicStep threeCityReg id 10 epidemicSt).cubes "A" .blue = 3 ∧
    (Pandemic.epidemicStep threeCityReg id 10 epidemicSt).supply .blue = 21 ∧
    (Pandemic.epidemicStep threeCityReg id 10 epidemicSt).infectionDeck =
      ([⟨"C"⟩, ⟨"A"⟩, ⟨"B"⟩] : List Pandemic.InfectionCard) ∧
    (Pandemic.infectOne threeCityReg id 10
        (Pandemic.epidemicStep threeCityReg id 10 epidemicSt)).1.infectionDiscard =
      ([⟨"B"⟩] : List Pandemic.InfectionCard) := by
  decide

/-- C3, counterexample.  On an easy run the setup baseline is 5, yet
`next_character_turn` (i) resets the OUTGOING character (index 0) and
(ii) resets to the constant 4: after the Advance from `c3St` the
incoming character 1 still has its old 2 action points (neither 5 nor
4), while the outgoing character 0 was set to 4. -/
theorem C3_advance_counterexample :
    CID.setupActionPoints "easy" = 5 ∧
    c3St.currentCharacterIndex = 0 ∧
    (c3St.characters.getD 1 CID.defaultCharacter).actionPoints = 2 ∧
    (CID.nextCharacterTurn c3St).currentCharacterIndex = 1 ∧
    ((CID.nextCharacterTurn c3St).characters.getD 1 CID.defaultCharacter).actionPoints = 2 ∧
    ((CID.nextCharacterTurn c3St).characters.getD 0 CID.defaultCharacter).actionPoints = 4 := by
  decide

/-- C3, amended.  Advance moves the turn pointer cyclically in both
engines, and the reset constant is 4 in both, independent of the
difficulty baseline fixed at setup.  In Pandemic the player reset is the
INCOMING one (the player at the new pointer); in Captain-is-Dead it is
the OUTGOING character (the one at the old pointer), and the incoming
character's points are untouched.  All other actors are unchanged. -/
theorem C3_advance_amended :
    (∀ st : Pandemic.GameState, 0 < st.players.length →
      (Pandemic.nextPlayerTurn st).currentPlayerIndex =
        (st.currentPlayerIndex + 1) % st.players.length ∧
      (Pandemic.nextPlayerTurn st).players.getD
          ((st.currentPlayerIndex + 1) % st.players.length) Pandemic.defaultPlayer =
        { st.players.getD ((st.currentPlayerIndex + 1) % st.players.length)
            Pandemic.defaultPlayer with actionPoints := 4 } ∧
      ∀ i, i ≠ (st.currentPlayerIndex + 1) % st.players.length →
        (Pandemic.nextPlayerTurn st).players.getD i Pandemic.defaultPlayer =
          st.players.getD i Pandemic.defaultPlayer) ∧
    (∀ st : CID.GameState,
      (CID.nextCharacterTurn st).currentCharacterIndex =
        (st.currentCharacterIndex + 1) % st.characters.length ∧
      (st.currentCharacterIndex < st.characters.length →
        (CID.nextCharacterTurn st).characters.getD st.currentCharacterIndex
            CID.defaultCharacter =
          { st.characters.getD st.currentCharacterIndex CID.defaultCharacter with
              actionPoints := 4 }) ∧
      ∀ i, i ≠ st.currentCharacterIndex →
        (CID.nextCharacterTurn st).characters.getD i CID.defaultCharacter =
          st.characters.getD i CID.defaultCharacter) := by
  constructor
  · intro st hlen
    refine ⟨rfl, ?_, ?_⟩
    · exact getD_updateAt_eq _ _ _ _ (Nat.mod_lt _ hlen)
    · intro i hi
      exact getD_updateAt_ne _ _ _ _ _ hi
  · intro st
    refine ⟨?_, ?_, ?_⟩
    · simp [CID.nextCharacterTurn, CID.modifyCurrentCharacter, updateAt_length]
    · intro hlt
      exact getD_updateAt_eq _ _ _ _ hlt
    · intro i hi
      exact getD_updateAt_ne _ _ _ _ _ hi

/-- C3, witness for the amended theorem at the concrete pandemic state
`pandTwoPlayerSt` and the concrete Captain-is-Dead state `c3St`. -/
theorem C3_advance_amended_witness :
    (0 < pandTwoPlayerSt.players.length ∧
      (Pandemic.nextPlayerTurn pandTwoPlayerSt).currentPlayerIndex =
        (pandTwoPlayerSt.currentPlayerIndex + 1) % pandTwoPlayerSt.players.length) ∧
    (c3St.currentCharacterIndex < c3St.characters.length ∧
      (CID.nextCharacterTurn c3St).characters.getD c3St.currentCharacterIndex
          CID.defaultCharacter =
        { c3St.characters.getD c3St.currentCharacterIndex CID.defaultCharacter with
            actionPoints := 4 }) :=
  ⟨⟨by decide, (C3_advance_amended.1 pandTwoPlayerSt (by decide)).1⟩,
   ⟨by decide, (C3_advance_amended.2 c3St).2.1 (by decide)⟩⟩



namespace Pandemic

theorem Frame.frefl (st : GameState) : Frame st st := ⟨rfl, rfl, rfl⟩

theorem Frame.ftrans {st1 st2 st3 : GameState} (h1 : Frame st1 st2) (h2 : Frame st2 st3) :
    Frame st1 st3 :=
  ⟨h1.1.trans h2.1, h1.2.1.trans h2.2.1, h1.2.2.trans h2.2.2⟩

theorem players_removeAllCubes (st : GameState) (c : String) (col : Color) :
    (removeAllCubes st c col).players = st.players := by
  unfold removeAllCubes; split <;> rfl

theorem idx_removeAllCubes (st : GameState) (c : String) (col : Color) :
    (removeAllCubes st c col).currentPlayerIndex = st.currentPlayerIndex := by
  unfold removeAllCubes; split <;> rfl

theorem curAP_congr {st st' : GameState} (hp : st'.players = st.players)
    (hi : st'.currentPlayerIndex = st.currentPlayerIndex) : curAP st' = curAP st := by
  unfold curAP currentPlayer; rw [hp, hi]

theorem frame_removeAllCubes (st : GameState) (c : String) (col : Color) :
    Frame (removeAllCubes st c col) st :=
  ⟨by rw [players_removeAllCubes], idx_removeAllCubes st c col,
   curAP_congr (players_removeAllCubes st c col) (idx_removeAllCubes st c col)⟩

theorem frame_medicAutoClear (st : GameState) (c : String) :
    Frame (medicAutoClear st c) st := by
  unfold medicAutoClear
  refine foldlPreserve (fun s => Frame s st) _ colorList st (Frame.frefl st) ?_
  intro s col _ hs
  dsimp only
  split
  · exact Frame.ftrans (frame_removeAllCubes s c col) hs
  · exact hs

theorem apAt_updateAt (l : List Player) (j i : Nat) (f : Player → Player)
    (hf : ∀ p, (f p).actionPoints = p.actionPoints) :
    ((updateAt l j f).getD i defaultPlayer).actionPoints =
      (l.getD i defaultPlayer).actionPoints := by
  by_cases hj : j < l.length
  · by_cases hij : i = j
    · subst hij; rw [getD_updateAt_eq _ _ _ _ hj, hf]
    · rw [getD_updateAt_ne _ _ _ _ _ hij]
  · rw [updateAt_of_length_le _ _ _ (Nat.le_of_not_lt hj)]

theorem frame_players_only (st : GameState) (l : List Player)
    (hlen : l.length = st.players.length)
    (hap : (l.getD st.currentPlayerIndex defaultPlayer).actionPoints =
           (st.players.getD st.currentPlayerIndex defaultPlayer).actionPoints) :
    Frame { st with players := l } st := ⟨hlen, rfl, hap⟩

theorem frame_setCurrentPlayer (st : GameState) (p : Player)
    (h : p.actionPoints = (currentPlayer st).actionPoints) :
    Frame (setCurrentPlayer st p) st := by
  refine frame_players_only st _ (updateAt_length ..) ?_
  by_cases hlt : st.currentPlayerIndex < st.players.length
  · rw [getD_updateAt_eq _ _ _ _ hlt]; exact h
  · rw [updateAt_of_length_le _ _ _ (Nat.le_of_not_lt hlt)]

theorem frame_finishMove (st : GameState) (d : String) :
    Frame (finishMove st d) st := by
  unfold finishMove
  dsimp only
  split
  · exact Frame.ftrans (frame_medicAutoClear _ _) (frame_setCurrentPlayer _ _ rfl)
  · exact frame_setCurrentPlayer _ _ rfl

theorem frame_cureFold (st0 : GameState) (col : Color) (n : Nat) :
    Frame ((List.range n).foldl
      (fun s i =>
        let q := s.players.getD i defaultPlayer
        if q.role = Role.medic then removeAllCubes s q.location col else s) st0) st0 := by
  refine foldlPreserve (fun s => Frame s st0) _ _ _ (Frame.frefl _) ?_
  intro s i _ hs
  dsimp only
  split
  · exact Frame.ftrans (frame_removeAllCubes _ _ _) hs
  · exact hs

set_option maxHeartbeats 2000000 in
theorem applyAction_frame (reg : Registry) (st : GameState) (a : PAction) :
    Frame (applyAction reg st a).1 st := by
  cases a with
  | passTurn => exact Frame.frefl st
  | unknownAction t => exact Frame.frefl st
  | move dest mt =>
    unfold applyAction applyMove
    dsimp only
    repeat' split
    all_goals
      first
      | exact Frame.frefl st
      | exact Frame.ftrans (frame_finishMove _ _) (Frame.frefl st)
      | exact Frame.ftrans (frame_finishMove _ _) (frame_setCurrentPlayer _ _ rfl)
  | treatDisease cs =>
    unfold applyAction applyTreat
    dsimp only
    repeat' split
    all_goals
      first
      | exact Frame.frefl st
      | exact frame_removeAllCubes _ _ _
  | buildResearchStation useOps =>
    unfold applyAction applyBuild
    dsimp only
    repeat' split
    all_goals
      first
      | exact Frame.frefl st
      | exact frame_setCurrentPlayer _ _ rfl
  | shareKnowledge card pname dir =>
    unfold applyAction applyShare
    dsimp only
    repeat' split
    all_goals
      first
      | exact Frame.frefl st
      | refine frame_players_only _ _ (by rw [updateAt_length, updateAt_length]) ?_
        rw [apAt_updateAt, apAt_updateAt]
        all_goals exact fun p => rfl
  | discoverCure cs cards =>
    unfold applyAction applyCure
    dsimp only
    repeat' split
    all_goals
      first
      | exact Frame.frefl st
      | exact Frame.ftrans (frame_cureFold _ _ _) (frame_setCurrentPlayer _ _ rfl)

set_option maxHeartbeats 2000000 in
theorem applyAction_fail_eq (reg : Registry) (st : GameState) (a : PAction) :
    (applyAction reg st a).2 = false → applyAction reg st a = (st, false) := by
  cases a <;>
    simp only [applyAction, applyMove, applyTreat, applyBuild, applyShare, applyCure] <;>
    (try dsimp only) <;> (repeat' split) <;> intro h <;> simp_all

theorem actionStep_spec (reg : Registry) (st : GameState) (a : PAction)
    (h : st.currentPlayerIndex < st.players.length) :
    (actionStep reg st a).2 = (applyAction reg st a).2 ∧
    curAP (actionStep reg st a).1 =
      curAP st - (if (applyAction reg st a).2 then 1 else 0) := by
  have hf := applyAction_frame reg st a
  rcases hA : applyAction reg st a with ⟨st', ok⟩
  rw [hA] at hf
  have hf' : Frame st' st := hf
  cases ok with
  | false =>
    refine ⟨?_, ?_⟩ <;> simp only [actionStep, hA] <;> simp [hf'.2.2]
  | true =>
    have hlt : st'.currentPlayerIndex < st'.players.length := by
      have e1 := hf'.1
      have e2 := hf'.2.1
      omega
    refine ⟨?_, ?_⟩
    · simp [actionStep, hA]
    · simp only [actionStep, hA, if_true, eq_self_iff_true]
      try dsimp only
      have h2 := hf'.2.2
      unfold curAP currentPlayer at h2 ⊢
      try dsimp only
      rw [getD_updateAt_eq _ _ _ _ hlt]
      try dsimp only
      rw [h2]
      try simp

theorem applyMove_absent (reg : Registry) (st : GameState) (dest mt : String)
    (h : dest ∉ reg.cityNames) : applyMove reg st dest mt = (st, false) := by
  unfold applyMove
  by_cases h0 : dest = ""
  · simp [h0]
  · simp [h0, h]

end Pandemic

namespace CID

theorem cidStep_fail (st : GameState) (ap : Int) (a : CIDAction) (o : Oracle) :
    (cidStep st ap a o).2.2 = false → cidStep st ap a o = (st, ap - 1, false) := by
  cases a <;> simp only [cidStep] <;> (repeat' split) <;>
    intro h <;> simp_all

theorem cidStep_move_none (st : GameState) (ap : Int) (dest : String) (o : Oracle)
    (h : parseLocation dest = none) :
    cidStep st ap (.move dest) o = (st, ap - 1, false) := by
  simp only [cidStep, h]

end CID

/-- C7.  Failed-action point-cost policy.  Pandemic (`play_turn`):
an action consumes one action point exactly when the resolver reports
success, and a `move` whose destination is absent from the registry is
rejected with the state completely unchanged and no point spent.
Captain-is-Dead (`play_turn`): any failed or unrecognized action intent
still consumes exactly 1 action point while leaving the state unchanged,
and in particular a `move` to an unknown location does so. -/
theorem C7_failed_action_cost_policy :
    (∀ (reg : Pandemic.Registry) (st : Pandemic.GameState) (a : Pandemic.PAction),
      st.currentPlayerIndex < st.players.length →
      (Pandemic.actionStep reg st a).2 = (Pandemic.applyAction reg st a).2 ∧
      Pandemic.curAP (Pandemic.actionStep reg st a).1 =
        Pandemic.curAP st - (if (Pandemic.applyAction reg st a).2 then 1 else 0)) ∧
    (∀ (reg : Pandemic.Registry) (st : Pandemic.GameState) (dest mt : String),
      dest ∉ reg.cityNames →
      Pandemic.actionStep reg st (.move dest mt) = (st, false)) ∧
    (∀ (st : CID.GameState) (ap : Int) (a : CID.CIDAction) (o : CID.Oracle),
      (CID.cidStep st ap a o).2.2 = false →
      CID.cidStep st ap a o = (st, ap - 1, false)) ∧
    (∀ (st : CID.GameState) (ap : Int) (dest : String) (o : CID.Oracle),
      CID.parseLocation dest = none →
      CID.cidStep st ap (.move dest) o = (st, ap - 1, false)) := by
  refine ⟨fun reg st a h => Pandemic.actionStep_spec reg st a h, ?_,
    CID.cidStep_fail, CID.cidStep_move_none⟩
  intro reg st dest mt h
  have hm := Pandemic.applyMove_absent reg st dest mt h
  unfold Pandemic.actionStep
  simp [Pandemic.applyAction, hm]

/-- C7, witness at concrete states: a pass action charging a point in
Pandemic, a move to an unknown city charging nothing, and a Captain-is-
Dead unknown action and unknown-destination move each charging one. -/
theorem C7_failed_action_cost_policy_witness :
    (pandTwoPlayerSt.currentPlayerIndex < pandTwoPlayerSt.players.length ∧
      Pandemic.curAP (Pandemic.actionStep twoCityReg pandTwoPlayerSt .passTurn).1 =
        Pandemic.curAP pandTwoPlayerSt -
          (if (Pandemic.applyAction twoCityReg pandTwoPlayerSt .passTurn).2 then 1 else 0)) ∧
    ("Nowhere" ∉ twoCityReg.cityNames ∧
      Pandemic.actionStep twoCityReg pandTwoPlayerSt (.move "Nowhere" "regular") =
        (pandTwoPlayerSt, false)) ∧
    ((CID.cidStep c3St 5 (.unknown "dance") oZero).2.2 = false ∧
      CID.cidStep c3St 5 (.unknown "dance") oZero = (c3St, 5 - 1, false)) ∧
    (CID.parseLocation "Nowhere" = none ∧
      CID.cidStep c3St 5 (.move "Nowhere") oZero = (c3St, 5 - 1, false)) :=
  ⟨⟨by decide,
    (C7_failed_action_cost_policy.1 twoCityReg pandTwoPlayerSt .passTurn (by decide)).2⟩,
   ⟨by decide,
    C7_failed_action_cost_policy.2.1 twoCityReg pandTwoPlayerSt "Nowhere" "regular" (by decide)⟩,
   ⟨by decide,
    C7_failed_action_cost_policy.2.2.1 c3St 5 (.unknown "dance") oZero (by decide)⟩,
   ⟨by decide,
    C7_failed_action_cost_policy.2.2.2 c3St 5 "Nowhere" oZero (by decide)⟩⟩




/-- C8.  Battle resolution in the Captain-is-Dead engine, for a threat
name found in the active list (first match, index `k`): with tactical
skill below `difficulty - 1` the attempt is refused (`applied = false`,
state unchanged, the 1-point failed-action cost still applies); with
skill at least `difficulty - 1` a single uniform draw decides success
exactly when it is below `min(0.9, 0.5 + (skill - difficulty) * 0.2)`;
success removes that threat from the list and failure increments that
threat's difficulty by exactly 1. -/
theorem C8_battle_resolution :
    ∀ (st : CID.GameState) (ap : Int) (name : String) (o : CID.Oracle) (k : Nat),
      findFirstIdx (fun t => t.name = name) st.activeThreats = some k →
      (((CID.currentCharacter st).skills .tactical <
          (st.activeThreats.getD k CID.defaultThreat).difficulty - 1 →
        CID.cidStep st ap (.battle name) o = (st, ap - 1, false)) ∧
       ((CID.currentCharacter st).skills .tactical ≥
          (st.activeThreats.getD k CID.defaultThreat).difficulty - 1 →
        (o.roll < CID.battleChance ((CID.currentCharacter st).skills .tactical)
            (st.activeThreats.getD k CID.defaultThreat).difficulty →
          CID.cidStep st ap (.battle name) o =
            ({ st with activeThreats := st.activeThreats.eraseIdx k }, ap - 1, true)) ∧
        (¬ o.roll < CID.battleChance ((CID.currentCharacter st).skills .tactical)
            (st.activeThreats.getD k CID.defaultThreat).difficulty →
          CID.cidStep st ap (.battle name) o =
            ({ st with activeThreats := CID.strengthenAt st.activeThreats k }, ap - 1, true)))) := by
  intro st ap name o k hk
  refine ⟨?_, ?_⟩
  · intro hlt
    simp only [CID.cidStep, hk]
    rw [if_neg (not_le.mpr hlt)]
  · intro hge
    constructor
    · intro hroll
      simp only [CID.cidStep, hk]
      rw [if_pos hge, if_pos hroll]
    · intro hroll
      simp only [CID.cidStep, hk]
      rw [if_pos hge, if_neg hroll]

/-- C8, witness: the refused branch at a difficulty-4 threat against
tactical skill 1, and both attempted branches at a difficulty-2 threat
(roll 0 succeeds, roll 0.95 fails). -/
theorem C8_battle_resolution_witness :
    (findFirstIdx (fun t => t.name = "Hull Breach") c8StrongSt.activeThreats = some 0 ∧
      (CID.currentCharacter c8StrongSt).skills .tactical <
        (c8StrongSt.activeThreats.getD 0 CID.defaultThreat).difficulty - 1 ∧
      CID.cidStep c8StrongSt 5 (.battle "Hull Breach") oZero = (c8StrongSt, 5 - 1, false)) ∧
    (findFirstIdx (fun t => t.name = "Power Fluctuation") c8WeakSt.activeThreats = some 0 ∧
      (0 : ℚ) < CID.battleChance 1 2 ∧
      CID.cidStep c8WeakSt 5 (.battle "Power Fluctuation") oZero =
        ({ c8WeakSt with activeThreats := c8WeakSt.activeThreats.eraseIdx 0 }, 5 - 1, true)) :=
  ⟨⟨by decide, by decide,
    (C8_battle_resolution c8StrongSt 5 "Hull Breach" oZero 0 (by decide)).1 (by decide)⟩,
   ⟨by decide, by norm_num [CID.battleChance],
    (C8_battle_resolution c8WeakSt 5 "Power Fluctuation" oZero 0 (by decide)).2
      (by decide) |>.1
      ((by norm_num [CID.battleChance] : (0 : ℚ) < CID.battleChance 1 2))⟩⟩




namespace CID

theorem cidStep_repair_jumpCore (st : GameState) (ap : Int) (o : Oracle)
    (hs : st.systems .jumpCore ≠ .online)
    (he : (currentCharacter st).skills .engineering ≥ 2) :
    cidStep st ap (.repair "Jump Core") o =
      (if st.jumpCoreProgress + 1 ≥ 5 then
        { st with jumpCoreProgress := st.jumpCoreProgress + 1
                  systems := updSys st.systems .jumpCore .online }
       else { st with jumpCoreProgress := st.jumpCoreProgress + 1 }, ap - 1, true) := by
  simp only [cidStep,
    show parseSystem "Jump Core" = some SystemName.jumpCore from by decide]
  rw [if_neg hs, if_pos trivial, if_pos he]

theorem cidStep_repair_jumpCore_lowSkill (st : GameState) (ap : Int) (o : Oracle)
    (hs : st.systems .jumpCore ≠ .online)
    (he : (currentCharacter st).skills .engineering < 2) :
    cidStep st ap (.repair "Jump Core") o = (st, ap - 1, false) := by
  simp only [cidStep,
    show parseSystem "Jump Core" = some SystemName.jumpCore from by decide]
  rw [if_neg hs, if_pos trivial, if_neg (not_le.mpr he)]

theorem cidStep_repair_other (st : GameState) (ap : Int) (o : Oracle) (s : String)
    (sys : SystemName) (hp : parseSystem s = some sys) (hj : sys ≠ .jumpCore)
    (he : (currentCharacter st).skills .engineering ≥ 1) :
    (st.systems sys = .damaged →
      cidStep st ap (.repair s) o =
        ({ st with systems := updSys st.systems sys .online }, ap - 1, true)) ∧
    (st.systems sys = .offline →
      cidStep st ap (.repair s) o =
        ({ st with systems := updSys st.systems sys .damaged }, ap - 1, true)) := by
  constructor <;> intro hst <;>
    simp only [cidStep, hp] <;>
    rw [if_neg (by rw [hst]; intro hc; cases hc), if_neg hj, if_pos he] <;>
    rw [hst]

theorem cidStep_repair_other_lowSkill (st : GameState) (ap : Int) (o : Oracle) (s : String)
    (sys : SystemName) (hp : parseSystem s = some sys) (hj : sys ≠ .jumpCore)
    (hs : st.systems sys ≠ .online)
    (he : (currentCharacter st).skills .engineering < 1) :
    cidStep st ap (.repair s) o = (st, ap - 1, false) := by
  simp only [cidStep, hp]
  rw [if_neg hs, if_neg hj, if_neg (not_le.mpr he)]

theorem repairJC_iterate (st : GameState)
    (he : (currentCharacter st).skills .engineering ≥ 2)
    (hoff : st.systems .jumpCore = .offline)
    (h0 : st.jumpCoreProgress = 0) :
    ∀ k : Nat, k ≤ 5 →
      (((fun s => (cidStep s 5 (.repair "Jump Core") oZero).1)^[k] st).jumpCoreProgress
          = (k : Int)) ∧
      (((fun s => (cidStep s 5 (.repair "Jump Core") oZero).1)^[k] st).systems .jumpCore
          = (if 5 ≤ k then SystemStatus.online else .offline)) ∧
      (((fun s => (cidStep s 5 (.repair "Jump Core") oZero).1)^[k] st).characters
          = st.characters) ∧
      (((fun s => (cidStep s 5 (.repair "Jump Core") oZero).1)^[k] st).currentCharacterIndex
          = st.currentCharacterIndex) := by
  intro k
  induction k with
  | zero =>
    intro _
    simp [Function.iterate_zero, h0, hoff]
  | succ n ih =>
    intro hn5
    have hn : n ≤ 5 := Nat.le_of_succ_le hn5
    obtain ⟨ihp, ihs, ihc, ihi⟩ := ih hn
    have hcur : currentCharacter (((fun s => (cidStep s 5 (.repair "Jump Core") oZero).1)^[n] st)) =
        currentCharacter st := by
      unfold currentCharacter
      rw [ihc, ihi]
    have hoffn : (((fun s => (cidStep s 5 (.repair "Jump Core") oZero).1)^[n] st)).systems
        .jumpCore ≠ .online := by
      rw [ihs, if_neg (by omega)]
      intro hc
      cases hc
    have hstep := cidStep_repair_jumpCore
      (((fun s => (cidStep s 5 (.repair "Jump Core") oZero).1)^[n] st)) 5 oZero hoffn
      (by rw [hcur]; exact he)
    rw [Function.iterate_succ_apply']
    have h1 : (cidStep (((fun s => (cidStep s 5 (.repair "Jump Core") oZero).1)^[n] st)) 5
        (.repair "Jump Core") oZero).1 =
        (if (((fun s => (cidStep s 5 (.repair "Jump Core") oZero).1)^[n] st)).jumpCoreProgress + 1 ≥ 5 then
          { (((fun s => (cidStep s 5 (.repair "Jump Core") oZero).1)^[n] st)) with
              jumpCoreProgress := (((fun s => (cidStep s 5 (.repair "Jump Core") oZero).1)^[n] st)).jumpCoreProgress + 1
              systems := updSys (((fun s => (cidStep s 5 (.repair "Jump Core") oZero).1)^[n] st)).systems .jumpCore .online }
         else { (((fun s => (cidStep s 5 (.repair "Jump Core") oZero).1)^[n] st)) with
              jumpCoreProgress := (((fun s => (cidStep s 5 (.repair "Jump Core") oZero).1)^[n] st)).jumpCoreProgress + 1 }) := by
      rw [hstep]
    rw [h1, ihp]
    by_cases h45 : (5 : Int) ≤ (n : Int) + 1
    · have hn4 : n + 1 = 5 := by omega
      rw [if_pos (by omega)]
      refine ⟨by exact (Nat.cast_succ n).symm, ?_, ihc, ihi⟩
      rw [if_pos (by omega)]
      simp [updSys]
    · rw [if_neg (by omega)]
      refine ⟨by exact (Nat.cast_succ n).symm, ?_, ihc, ihi⟩
      rw [if_neg (by omega)]
      rw [ihs, if_neg (by omega)]

end CID

/-- C9.  Repair resolution in the Captain-is-Dead engine: a Jump Core
repair needs engineering skill at least 2 (below that it is refused with
the state unchanged) and advances `jump_core_progress` by exactly 1,
setting the Jump Core status to Online exactly when the new progress
reaches 5; any other known system needs engineering skill at least 1 and
advances one tier, Offline to Damaged or Damaged to Online.  Starting
from progress 0 with the Jump Core offline, five consecutive repairs by
a character with engineering skill at least 2 bring the progress to 5,
put the Jump Core Online, and make the termination checker report
victory. -/
theorem C9_jump_core_repair :
    (∀ (st : CID.GameState) (ap : Int) (o : CID.Oracle),
      st.systems .jumpCore ≠ .online →
      (CID.currentCharacter st).skills .engineering ≥ 2 →
      CID.cidStep st ap (.repair "Jump Core") o =
        (if st.jumpCoreProgress + 1 ≥ 5 then
          { st with jumpCoreProgress := st.jumpCoreProgress + 1
                    systems := CID.updSys st.systems .jumpCore .online }
         else { st with jumpCoreProgress := st.jumpCoreProgress + 1 }, ap - 1, true)) ∧
    (∀ (st : CID.GameState) (ap : Int) (o : CID.Oracle),
      st.systems .jumpCore ≠ .online →
      (CID.currentCharacter st).skills .engineering < 2 →
      CID.cidStep st ap (.repair "Jump Core") o = (st, ap - 1, false)) ∧
    (∀ (st : CID.GameState) (ap : Int) (o : CID.Oracle) (s : String) (sys : CID.SystemName),
      CID.parseSystem s = some sys → sys ≠ .jumpCore →
      (CID.currentCharacter st).skills .engineering ≥ 1 →
      (st.systems sys = .damaged →
        CID.cidStep st ap (.repair s) o =
          ({ st with systems := CID.updSys st.systems sys .online }, ap - 1, true)) ∧
      (st.systems sys = .offline →
        CID.cidStep st ap (.repair s) o =
          ({ st with systems := CID.updSys st.systems sys .damaged }, ap - 1, true))) ∧
    (∀ st : CID.GameState,
      (CID.currentCharacter st).skills .engineering ≥ 2 →
      st.systems .jumpCore = .offline →
      st.jumpCoreProgress = 0 →
      ((fun s => (CID.cidStep s 5 (.repair "Jump Core") oZero).1)^[5] st).jumpCoreProgress
          = 5 ∧
      ((fun s => (CID.cidStep s 5 (.repair "Jump Core") oZero).1)^[5] st).systems .jumpCore
          = .online ∧
      CID.isGameOver ((fun s => (CID.cidStep s 5 (.repair "Jump Core") oZero).1)^[5] st) =
        (true, "Victory! The jump core has been fully repaired and the ship has escaped.")) := by
  refine ⟨CID.cidStep_repair_jumpCore, CID.cidStep_repair_jumpCore_lowSkill,
    CID.cidStep_repair_other, ?_⟩
  intro st he hoff h0
  obtain ⟨hp, hs, _, _⟩ := CID.repairJC_iterate st he hoff h0 5 le_rfl
  rw [if_pos le_rfl] at hs
  refine ⟨by exact_mod_cast hp, hs, ?_⟩
  unfold CID.isGameOver
  rw [if_pos (by rw [hp]; norm_num)]

/-- C9, witness: the five-repair scenario evaluated from the concrete
state `c3St`, whose engineer has engineering skill 3, Jump Core offline
and progress 0. -/
theorem C9_jump_core_repair_witness :
    ((CID.currentCharacter c3St).skills .engineering ≥ 2 ∧
      c3St.systems .jumpCore = .offline ∧ c3St.jumpCoreProgress = 0) ∧
    (((fun s => (CID.cidStep s 5 (.repair "Jump Core") oZero).1)^[5] c3St).jumpCoreProgress
        = 5 ∧
      ((fun s => (CID.cidStep s 5 (.repair "Jump Core") oZero).1)^[5] c3St).systems .jumpCore
        = .online ∧
      CID.isGameOver ((fun s => (CID.cidStep s 5 (.repair "Jump Core") oZero).1)^[5] c3St) =
        (true, "Victory! The jump core has been fully repaired and the ship has escaped.")) :=
  ⟨⟨by decide, by decide, by decide⟩,
   C9_jump_core_repair.2.2.2 c3St (by decide) (by decide) (by decide)⟩




theorem updateAt_updateAt {α : Type} (l : List α) (i : Nat) (f g : α → α) :
    updateAt (updateAt l i f) i g = updateAt l i (fun x => g (f x)) := by
  induction l generalizing i with
  | nil => rfl
  | cons x xs ih =>
    cases i with
    | zero => rfl
    | succ n => simp [updateAt, ih]

namespace CID

theorem systems_setCurLoc (st : GameState) (l : Location) :
    (setCurLoc st l).systems = st.systems := rfl

theorem threats_setCurLoc (st : GameState) (l : Location) :
    (setCurLoc st l).activeThreats = st.activeThreats := rfl

theorem progress_setCurLoc (st : GameState) (l : Location) :
    (setCurLoc st l).jumpCoreProgress = st.jumpCoreProgress := rfl

theorem idx_setCurLoc (st : GameState) (l : Location) :
    (setCurLoc st l).currentCharacterIndex = st.currentCharacterIndex := rfl

theorem skills_setCurLoc (st : GameState)
    (hidx : st.currentCharacterIndex < st.characters.length) (l : Location) :
    (currentCharacter (setCurLoc st l)).skills = (currentCharacter st).skills := by
  unfold currentCharacter setCurLoc modifyCurrentCharacter
  dsimp only
  rw [getD_updateAt_eq _ _ _ _ hidx]

end CID

/-- C10.  Location independence of the repair, use_system and battle
intents of the Captain-is-Dead engine: two states that differ only in
the current character's location produce the same applied flag, the
same remaining action-point budget, and successor states that agree
everywhere except possibly in that location field (stated by overwriting
the current character's location with a fixed value on both sides). -/
theorem C10_location_independence :
    ∀ (st : CID.GameState) (ap : Int) (a : CID.CIDAction) (o : CID.Oracle)
      (l1 l2 : CID.Location),
      CID.isLocFree a = true →
      st.currentCharacterIndex < st.characters.length →
      (CID.cidStep (CID.setCurLoc st l1) ap a o).2 =
        (CID.cidStep (CID.setCurLoc st l2) ap a o).2 ∧
      CID.setCurLoc (CID.cidStep (CID.setCurLoc st l1) ap a o).1 .bridge =
        CID.setCurLoc (CID.cidStep (CID.setCurLoc st l2) ap a o).1 .bridge := by
  intro st ap a o l1 l2 hfree hidx
  have hsk := CID.skills_setCurLoc st hidx
  cases a with
  | move d => simp [CID.isLocFree] at hfree
  | unknown t => simp [CID.isLocFree] at hfree
  | repair s =>
    simp only [CID.cidStep, hsk, CID.systems_setCurLoc, CID.threats_setCurLoc,
      CID.progress_setCurLoc, CID.idx_setCurLoc]
    repeat' split
    all_goals refine ⟨rfl, ?_⟩
    all_goals unfold CID.setCurLoc CID.modifyCurrentCharacter
    all_goals dsimp only
    all_goals simp only [updateAt_updateAt]
  | useSystem s =>
    simp only [CID.cidStep, hsk, CID.systems_setCurLoc, CID.threats_setCurLoc,
      CID.progress_setCurLoc, CID.idx_setCurLoc]
    repeat' split
    all_goals refine ⟨rfl, ?_⟩
    all_goals unfold CID.setCurLoc CID.modifyCurrentCharacter
    all_goals dsimp only
    all_goals simp only [updateAt_updateAt]
  | battle t =>
    simp only [CID.cidStep, hsk, CID.systems_setCurLoc, CID.threats_setCurLoc,
      CID.progress_setCurLoc, CID.idx_setCurLoc]
    repeat' split
    all_goals refine ⟨rfl, ?_⟩
    all_goals unfold CID.setCurLoc CID.modifyCurrentCharacter
    all_goals dsimp only
    all_goals simp only [updateAt_updateAt]

/-- C10, witness: a Jump Core repair from two states differing only in
the engineer's location (Bridge resp. Sick Bay) yields the same applied
flag and budget. -/
theorem C10_location_independence_witness :
    (CID.isLocFree (.repair "Jump Core") = true ∧
      c3St.currentCharacterIndex < c3St.characters.length) ∧
    (CID.cidStep (CID.setCurLoc c3St .bridge) 5 (.repair "Jump Core") oZero).2 =
      (CID.cidStep (CID.setCurLoc c3St .sickBay) 5 (.repair "Jump Core") oZero).2 :=
  ⟨⟨by decide, by decide⟩,
   (C10_location_independence c3St 5 (.repair "Jump Core") oZero .bridge .sickBay
      (by decide) (by decide)).1⟩




namespace Pandemic

theorem addCube_cubes_mono (reg : Registry) (x : String) (c : Color) :
    ∀ (fuel : Nat) (st : GameState) (city : String) (col : Color),
      st.cubes x c ≤ (addDiseaseCube reg fuel st city col).1.cubes x c := by
  intro fuel
  induction fuel with
  | zero => intro st city col; exact le_refl _
  | succ n ih =>
    intro st city col
    simp only [addDiseaseCube]
    split
    · exact le_refl _
    · split
      · exact le_refl _
      · split
        · split
          · exact le_refl _
          · refine foldlPreserve (fun acc : GameState × Bool => st.cubes x c ≤ acc.1.cubes x c) _ _ _
              (le_refl _) ?_
            intro acc nn hmem hacc
            dsimp only
            split
            · exact hacc
            · split
              · exact hacc
              · exact le_trans hacc (ih acc.1 nn col)
        · dsimp only
          unfold updCube
          by_cases hx : x = city ∧ c = col
          · rw [if_pos hx]
            obtain ⟨h1, h2⟩ := hx
            subst h1; subst h2
            omega
          · rw [if_neg hx]

theorem addCube_cubes_bound (reg : Registry) (x : String) (c : Color) :
    ∀ (fuel : Nat) (st : GameState) (city : String) (col : Color),
      (addDiseaseCube reg fuel st city col).1.cubes x c ≤ max (st.cubes x c) 3 := by
  intro fuel
  induction fuel with
  | zero => intro st city col; exact le_max_left _ _
  | succ n ih =>
    intro st city col
    simp only [addDiseaseCube]
    split
    · exact le_max_left _ _
    · split
      · exact le_max_left _ _
      · split
        · split
          · exact le_max_left _ _
          · refine foldlPreserve
              (fun acc : GameState × Bool => acc.1.cubes x c ≤ max (st.cubes x c) 3) _ _ _
              (le_max_left _ _) ?_
            intro acc nn hmem hacc
            dsimp only
            split
            · exact hacc
            · split
              · exact hacc
              · calc (addDiseaseCube reg n acc.1 nn col).1.cubes x c
                    ≤ max (acc.1.cubes x c) 3 := ih acc.1 nn col
                  _ ≤ max (max (st.cubes x c) 3) 3 := max_le_max hacc (le_refl 3)
                  _ = max (st.cubes x c) 3 := by rw [max_assoc, max_self]
        · rename_i hc3
          dsimp only
          unfold updCube
          by_cases hx : x = city ∧ c = col
          · rw [if_pos hx]
            obtain ⟨h1, h2⟩ := hx
            subst h1; subst h2
            refine le_trans ?_ (le_max_right _ _)
            omega
          · rw [if_neg hx]
            exact le_max_left _ _

theorem addCube_outbreaks_mono (reg : Registry) :
    ∀ (fuel : Nat) (st : GameState) (city : String) (col : Color),
      st.outbreaks ≤ (addDiseaseCube reg fuel st city col).1.outbreaks := by
  intro fuel
  induction fuel with
  | zero => intro st city col; exact le_refl _
  | succ n ih =>
    intro st city col
    simp only [addDiseaseCube]
    split
    · exact le_refl _
    · split
      · exact le_refl _
      · split
        · split
          · dsimp only; omega
          · refine foldlPreserve
              (fun acc : GameState × Bool => st.outbreaks ≤ acc.1.outbreaks) _ _ _
              (by dsimp only; omega) ?_
            intro acc nn hmem hacc
            dsimp only
            split
            · exact hacc
            · split
              · exact hacc
              · exact le_trans hacc (ih acc.1 nn col)
        · exact le_refl _

theorem addCube_outbreak_increment (reg : Registry) (fuel : Nat) (st : GameState)
    (city : String) (col : Color)
    (hs : st.status col ≠ .eradicated) (hsup : ¬ st.supply col ≤ 0)
    (h3 : st.cubes city col ≥ 3) :
    st.outbreaks + 1 ≤ (addDiseaseCube reg (fuel + 1) st city col).1.outbreaks := by
  simp only [addDiseaseCube]
  rw [if_neg hs, if_neg hsup, if_pos h3]
  try dsimp only
  split
  · dsimp only; omega
  · refine foldlPreserve
      (fun acc : GameState × Bool => st.outbreaks + 1 ≤ acc.1.outbreaks) _ _ _
      (by dsimp only; omega) ?_
    intro acc nn hmem hacc
    dsimp only
    split
    · exact hacc
    · split
      · exact hacc
      · exact le_trans hacc (addCube_outbreaks_mono reg fuel acc.1 nn col)

theorem cityRemoveCube_nonneg (st : GameState) (city : String) (col : Color)
    (x : String) (c : Color) (h0 : 0 ≤ st.cubes x c) :
    0 ≤ (cityRemoveCube st city col).1.cubes x c := by
  unfold cityRemoveCube
  split
  · exact h0
  · rename_i hpos
    dsimp only
    unfold updCube
    by_cases hx : x = city ∧ c = col
    · rw [if_pos hx]
      obtain ⟨h1, h2⟩ := hx
      subst h1; subst h2
      omega
    · rw [if_neg hx]
      exact h0

theorem removeAllCubes_range (st : GameState) (city : String) (col : Color)
    (h : cubesInRange st) : cubesInRange (removeAllCubes st city col) := by
  intro x c
  unfold removeAllCubes
  split
  · dsimp only
    unfold updCube
    by_cases hx : x = city ∧ c = col
    · rw [if_pos hx]
      constructor <;> omega
    · rw [if_neg hx]
      exact h x c
  · exact h x c

theorem applyTreat_range (st : GameState) (cs : String) (h : cubesInRange st) :
    cubesInRange (applyTreat st cs).1 := by
  unfold applyTreat
  split
  · exact h
  · cases hp : parseColor cs with
    | none => exact h
    | some col =>
      dsimp only
      by_cases h0 : st.cubes (currentPlayer st).location col ≤ 0
      · rw [if_pos h0]; exact h
      · rw [if_neg h0]
        by_cases hmed : (currentPlayer st).role = Role.medic
        · rw [if_pos hmed]; exact removeAllCubes_range _ _ _ h
        · rw [if_neg hmed]
          by_cases hcur : st.status col ≠ DiseaseStatus.active
          · rw [if_pos hcur]; exact removeAllCubes_range _ _ _ h
          · rw [if_neg hcur]
            intro xx cc
            dsimp only
            unfold updCube
            by_cases hx : xx = (currentPlayer st).location ∧ cc = col
            · rw [if_pos hx]
              obtain ⟨hb1, hb2⟩ := h ((currentPlayer st).location) col
              constructor <;> omega
            · rw [if_neg hx]
              exact h xx cc

end Pandemic

/-- C6.  Cube-count bounds: the shared cube-addition/outbreak logic
keeps every per-city per-color count within [0, 3]; an attempted 4th
addition leaves the source city's count at exactly 3 (never 4, zero net
change) and, when the addition was actually attempted (color not
eradicated, supply positive), increments the global outbreak counter by
at least one (redirection to outbreak handling); `remove_disease_cube`
never drives a count below 0; and the treat_disease action preserves
the bounds. -/
theorem C6_cube_bounds :
    (∀ (reg : Pandemic.Registry) (fuel : Nat) (st : Pandemic.GameState)
        (city : String) (col : Pandemic.Color),
      Pandemic.cubesInRange st →
      Pandemic.cubesInRange (Pandemic.addDiseaseCube reg fuel st city col).1) ∧
    (∀ (reg : Pandemic.Registry) (fuel : Nat) (st : Pandemic.GameState)
        (city : String) (col : Pandemic.Color),
      st.cubes city col = 3 →
      (Pandemic.addDiseaseCube reg fuel st city col).1.cubes city col = 3) ∧
    (∀ (reg : Pandemic.Registry) (fuel : Nat) (st : Pandemic.GameState)
        (city : String) (col : Pandemic.Color),
      st.status col ≠ .eradicated → ¬ st.supply col ≤ 0 → st.cubes city col ≥ 3 →
      st.outbreaks + 1 ≤
        (Pandemic.addDiseaseCube reg (fuel + 1) st city col).1.outbreaks) ∧
    (∀ (st : Pandemic.GameState) (city x : String) (col c : Pandemic.Color),
      0 ≤ st.cubes x c → 0 ≤ (Pandemic.cityRemoveCube st city col).1.cubes x c) ∧
    (∀ (st : Pandemic.GameState) (cs : String),
      Pandemic.cubesInRange st → Pandemic.cubesInRange (Pandemic.applyTreat st cs).1) := by
  refine ⟨?_, ?_, ?_, ?_, ?_⟩
  · intro reg fuel st city col hr x c
    constructor
    · exact le_trans (hr x c).1 (Pandemic.addCube_cubes_mono reg x c fuel st city col)
    · exact le_trans (Pandemic.addCube_cubes_bound reg x c fuel st city col)
        (max_le (hr x c).2 (le_refl 3))
  · intro reg fuel st city col h3
    refine le_antisymm ?_ ?_
    · have hb := Pandemic.addCube_cubes_bound reg city col fuel st city col
      rw [h3] at hb
      simpa using hb
    · have hm := Pandemic.addCube_cubes_mono reg city col fuel st city col
      rw [h3] at hm
      exact hm
  · intro reg fuel st city col hs hsup h3
    exact Pandemic.addCube_outbreak_increment reg fuel st city col hs hsup h3
  · intro st city x col c h0
    exact Pandemic.cityRemoveCube_nonneg st city col x c h0
  · intro st cs h
    exact Pandemic.applyTreat_range st cs h

/-- C6, witness: the 4th-addition conjuncts evaluated at the concrete
two-city state (city A holds exactly 3 blue cubes). -/
theorem C6_cube_bounds_witness :
    (twoCitySt.cubes "A" .blue = 3 ∧
      (Pandemic.addDiseaseCube twoCityReg 100 twoCitySt "A" .blue).1.cubes "A" .blue = 3) ∧
    (twoCitySt.status .blue ≠ .eradicated ∧ ¬ twoCitySt.supply .blue ≤ 0 ∧
      twoCitySt.cubes "A" .blue ≥ 3 ∧
      twoCitySt.outbreaks + 1 ≤
        (Pandemic.addDiseaseCube twoCityReg 100 twoCitySt "A" .blue).1.outbreaks) :=
  ⟨⟨by decide, C6_cube_bounds.2.1 twoCityReg 100 twoCitySt "A" .blue (by decide)⟩,
   ⟨by decide, by decide, by decide,
    C6_cube_bounds.2.2.1 twoCityReg 99 twoCitySt "A" .blue (by decide) (by decide)
      (by decide)⟩⟩


namespace Pandemic

theorem sum_map_update (x : String) (g : String → Int) (v : Int) :
    ∀ (l : List String), l.Nodup → x ∈ l →
      (l.map (fun cc => if cc = x then v else g cc)).sum = (l.map g).sum + v - g x := by
  intro l
  induction l with
  | nil => intro _ hx; cases hx
  | cons y ys ih =>
    intro hnd hx
    rw [List.map_cons, List.map_cons, List.sum_cons, List.sum_cons]
    by_cases hy : y = x
    · subst hy
      rw [if_pos rfl]
      have hnotin : y ∉ ys := (List.nodup_cons.mp hnd).1
      have heq : ys.map (fun cc => if cc = y then v else g cc) = ys.map g :=
        List.map_congr_left (fun a ha => if_neg (fun (he : a = y) => hnotin (he ▸ ha)))
      rw [heq]
      ring
    · rw [if_neg hy]
      have hx' : x ∈ ys := by
        rcases List.mem_cons.mp hx with h | h
        · exact absurd h.symm hy
        · exact h
      rw [ih (List.nodup_cons.mp hnd).2 hx']
      ring

theorem addCube_conserve (reg : Registry) (hnd : reg.cityNames.Nodup)
    (hcl : ∀ a ∈ reg.cityNames, ∀ d ∈ reg.conn a, d ∈ reg.cityNames) (c : Color) :
    ∀ (fuel : Nat) (st : GameState) (city : String) (col : Color),
      city ∈ reg.cityNames →
      (addDiseaseCube reg fuel st city col).1.supply c +
          boardSum reg (addDiseaseCube reg fuel st city col).1 c =
        st.supply c + boardSum reg st c := by
  intro fuel
  induction fuel with
  | zero => intro st city col hin; rfl
  | succ n ih =>
    intro st city col hin
    simp only [addDiseaseCube]
    split
    · rfl
    · split
      · rfl
      · split
        · split
          · rfl
          · refine foldlPreserve (fun acc : GameState × Bool =>
              acc.1.supply c + boardSum reg acc.1 c = st.supply c + boardSum reg st c)
              _ _ _ rfl ?_
            intro acc nn hmem hacc
            dsimp only
            split
            · exact hacc
            · split
              · exact hacc
              · rw [ih acc.1 nn col (hcl city hin nn hmem)]
                exact hacc
        · dsimp only
          unfold boardSum updColor updCube
          dsimp only
          by_cases hc : c = col
          · subst hc
            rw [if_pos rfl]
            have heq : reg.cityNames.map
                  (fun cc => if cc = city ∧ c = c then st.cubes city c + 1 else st.cubes cc c) =
                reg.cityNames.map
                  (fun cc => if cc = city then st.cubes city c + 1 else st.cubes cc c) :=
              List.map_congr_left (fun a _ => by simp)
            rw [heq, sum_map_update city (fun cc => st.cubes cc c) _ reg.cityNames hnd hin]
            ring
          · rw [if_neg hc]
            have heq : reg.cityNames.map
                  (fun cc => if cc = city ∧ c = col then st.cubes city col + 1 else st.cubes cc c) =
                reg.cityNames.map (fun cc => st.cubes cc c) :=
              List.map_congr_left (fun a _ => if_neg (fun hh => hc hh.2))
            rw [heq]

theorem getD_mem_of_lt {α : Type} (l : List α) (i : Nat) (d : α) (h : i < l.length) :
    l.getD i d ∈ l := by
  induction l generalizing i with
  | nil => simp at h
  | cons x xs ih =>
    cases i with
    | zero => exact List.mem_cons_self x xs
    | succ n => exact List.mem_cons_of_mem x (ih n (by simpa using h))

theorem locAt_updateAt (l : List Player) (j i : Nat) (f : Player → Player)
    (hf : ∀ p, (f p).location = p.location) :
    ((updateAt l j f).getD i defaultPlayer).location =
      (l.getD i defaultPlayer).location := by
  by_cases hj : j < l.length
  · by_cases hij : i = j
    · subst hij; rw [getD_updateAt_eq _ _ _ _ hj, hf]
    · rw [getD_updateAt_ne _ _ _ _ _ hij]
  · rw [updateAt_of_length_le _ _ _ (Nat.le_of_not_lt hj)]

theorem removeAllCubes_conserve (reg : Registry) (hnd : reg.cityNames.Nodup)
    (city : String) (hin : city ∈ reg.cityNames) (col : Color) (c : Color)
    (s : GameState) :
    (removeAllCubes s city col).supply c + boardSum reg (removeAllCubes s city col) c =
      s.supply c + boardSum reg s c := by
  unfold removeAllCubes
  split
  · dsimp only
    unfold boardSum updColor updCube
    dsimp only
    by_cases hc : c = col
    · subst hc
      rw [if_pos rfl]
      have heq : reg.cityNames.map
            (fun cc => if cc = city ∧ c = c then 0 else s.cubes cc c) =
          reg.cityNames.map (fun cc => if cc = city then 0 else s.cubes cc c) :=
        List.map_congr_left (fun a _ => by simp)
      rw [heq, sum_map_update city (fun cc => s.cubes cc c) _ reg.cityNames hnd hin]
      ring
    · rw [if_neg hc]
      have heq : reg.cityNames.map
            (fun cc => if cc = city ∧ c = col then 0 else s.cubes cc c) =
          reg.cityNames.map (fun cc => s.cubes cc c) :=
        List.map_congr_left (fun a _ => if_neg (fun hh => hc hh.2))
      rw [heq]
  · rfl

theorem medicAutoClear_conserve (reg : Registry) (hnd : reg.cityNames.Nodup)
    (city : String) (hin : city ∈ reg.cityNames) (st : GameState) (c : Color) :
    (medicAutoClear st city).supply c + boardSum reg (medicAutoClear st city) c =
      st.supply c + boardSum reg st c := by
  unfold medicAutoClear
  refine foldlPreserve (fun s : GameState =>
    s.supply c + boardSum reg s c = st.supply c + boardSum reg st c) _ _ _ rfl ?_
  intro s col _ hs
  dsimp only
  split
  · rw [removeAllCubes_conserve reg hnd city hin col c s]
    exact hs
  · exact hs

theorem finishMove_conserve (reg : Registry) (hnd : reg.cityNames.Nodup)
    (st : GameState) (d : String) (hd : d ∈ reg.cityNames) (c : Color) :
    (finishMove st d).supply c + boardSum reg (finishMove st d) c =
      st.supply c + boardSum reg st c := by
  unfold finishMove
  dsimp only
  split
  · exact medicAutoClear_conserve reg hnd d hd _ c
  · rfl

theorem applyMove_conserve (reg : Registry) (hnd : reg.cityNames.Nodup)
    (st : GameState) (dest mt : String) (c : Color) :
    (applyMove reg st dest mt).1.supply c + boardSum reg (applyMove reg st dest mt).1 c =
      st.supply c + boardSum reg st c := by
  unfold applyMove
  by_cases h0 : dest = ""
  · rw [if_pos h0]
  · rw [if_neg h0]
    by_cases h1 : dest ∉ reg.cityNames
    · rw [if_pos h1]
    · rw [if_neg h1]
      have hd : dest ∈ reg.cityNames := not_not.mp h1
      by_cases h2 : mt = "regular"
      · rw [if_pos h2]
        by_cases h3 : dest ∉ reg.conn (currentPlayer st).location
        · rw [if_pos h3]
        · rw [if_neg h3]
          exact finishMove_conserve reg hnd st dest hd c
      · rw [if_neg h2]
        by_cases h4 : mt = "direct_flight"
        · rw [if_pos h4]
          by_cases h5 : dest ∉ (currentPlayer st).hand
          · rw [if_pos h5]
          · rw [if_neg h5]
            exact finishMove_conserve reg hnd _ dest hd c
        · rw [if_neg h4]
          by_cases h6 : mt = "charter_flight"
          · rw [if_pos h6]
            by_cases h7 : (currentPlayer st).location ∉ (currentPlayer st).hand
            · rw [if_pos h7]
            · rw [if_neg h7]
              exact finishMove_conserve reg hnd _ dest hd c
          · rw [if_neg h6]
            by_cases h8 : mt = "shuttle_flight"
            · rw [if_pos h8]
              by_cases h9 : ¬ st.stations (currentPlayer st).location
              · rw [if_pos h9]
              · rw [if_neg h9]
                by_cases h10 : ¬ st.stations dest
                · rw [if_pos h10]
                · rw [if_neg h10]
                  exact finishMove_conserve reg hnd st dest hd c
            · rw [if_neg h8]
              by_cases h11 : mt = "operations_expert"
              · rw [if_pos h11]
                by_cases h12 : (currentPlayer st).role ≠ Role.operationsExpert
                · rw [if_pos h12]
                · rw [if_neg h12]
                  by_cases h13 : ¬ st.stations (currentPlayer st).location
                  · rw [if_pos h13]
                  · rw [if_neg h13]
                    cases hh : (currentPlayer st).hand with
                    | nil => rfl
                    | cons card rest =>
                      exact finishMove_conserve reg hnd _ dest hd c
              · rw [if_neg h11]

theorem applyTreat_conserve (reg : Registry) (hnd : reg.cityNames.Nodup)
    (st : GameState) (cs : String)
    (hloc : (currentPlayer st).location ∈ reg.cityNames) (c : Color) :
    (applyTreat st cs).1.supply c + boardSum reg (applyTreat st cs).1 c =
      st.supply c + boardSum reg st c := by
  unfold applyTreat
  split
  · rfl
  · cases hp : parseColor cs with
    | none => rfl
    | some col =>
      dsimp only
      by_cases h0 : st.cubes (currentPlayer st).location col ≤ 0
      · rw [if_pos h0]
      · rw [if_neg h0]
        by_cases hmed : (currentPlayer st).role = Role.medic
        · rw [if_pos hmed]
          exact removeAllCubes_conserve reg hnd _ hloc col c st
        · rw [if_neg hmed]
          by_cases hcur : st.status col ≠ DiseaseStatus.active
          · rw [if_pos hcur]
            exact removeAllCubes_conserve reg hnd _ hloc col c st
          · rw [if_neg hcur]
            dsimp only
            unfold boardSum updColor updCube
            dsimp only
            by_cases hc : c = col
            · subst hc
              rw [if_pos rfl]
              have heq : reg.cityNames.map (fun cc =>
                    if cc = (currentPlayer st).location ∧ c = c then
                      st.cubes (currentPlayer st).location c - 1
                    else st.cubes cc c) =
                  reg.cityNames.map (fun cc =>
                    if cc = (currentPlayer st).location then
                      st.cubes (currentPlayer st).location c - 1
                    else st.cubes cc c) :=
                List.map_congr_left (fun a _ => by simp)
              rw [heq, sum_map_update _ (fun cc => st.cubes cc c) _ reg.cityNames hnd hloc]
              ring
            · rw [if_neg hc]
              have heq : reg.cityNames.map (fun cc =>
                    if cc = (currentPlayer st).location ∧ c = col then
                      st.cubes (currentPlayer st).location col - 1
                    else st.cubes cc c) =
                  reg.cityNames.map (fun cc => st.cubes cc c) :=
                List.map_congr_left (fun a _ => if_neg (fun hh => hc hh.2))
              rw [heq]

theorem locAt_setHand (st : GameState) (newHand : List String) (i : Nat) :
    ((setCurrentPlayer st { currentPlayer st with hand := newHand }).players.getD i
        defaultPlayer).location =
      (st.players.getD i defaultPlayer).location := by
  unfold setCurrentPlayer
  dsimp only
  by_cases hj : st.currentPlayerIndex < st.players.length
  · by_cases hij : i = st.currentPlayerIndex
    · subst hij
      rw [getD_updateAt_eq _ _ _ _ hj]
      rfl
    · rw [getD_updateAt_ne _ _ _ _ _ hij]
  · rw [updateAt_of_length_le _ _ _ (Nat.le_of_not_lt hj)]

theorem applyCure_conserve (reg : Registry) (hnd : reg.cityNames.Nodup)
    (st : GameState) (cs : String) (cards : List String)
    (hplayers : ∀ p ∈ st.players, p.location ∈ reg.cityNames) (c : Color) :
    (applyCure reg st cs cards).1.supply c +
        boardSum reg (applyCure reg st cs cards).1 c =
      st.supply c + boardSum reg st c := by
  unfold applyCure
  split
  · rfl
  · cases hp : parseColor cs with
    | none => rfl
    | some col =>
      dsimp only
      by_cases h1 : st.status col ≠ DiseaseStatus.active
      · rw [if_pos h1]
      · rw [if_neg h1]
        by_cases h2 : ¬ st.stations (currentPlayer st).location
        · rw [if_pos h2]
        · rw [if_neg h2]
          by_cases h3 : cards.length <
              (if (currentPlayer st).role = Role.scientist then 4 else 5)
          · rw [if_pos h3]
          · rw [if_neg h3]
            by_cases h4 : ¬ (∀ cc ∈ cards, cc ∈ (currentPlayer st).hand)
            · rw [if_pos h4]
            · rw [if_neg h4]
              by_cases h5 : ¬ (∀ cc ∈ cards, cc ∈ reg.cityNames → reg.colorOf cc = col)
              · rw [if_pos h5]
              · rw [if_neg h5]
                dsimp only
                refine (foldlPreserve (fun s : GameState =>
                    s.players = (setCurrentPlayer st { currentPlayer st with
                      hand := cards.foldl (fun hh cc => hh.erase cc)
                        (currentPlayer st).hand }).players ∧
                    s.supply c + boardSum reg s c =
                      st.supply c + boardSum reg st c) _ _ _ ?_ ?_).2
                · exact ⟨rfl, rfl⟩
                intro s i hi hs
                dsimp only
                split
                · have hi' : i < st.players.length := by
                    have hr := List.mem_range.mp hi
                    unfold setCurrentPlayer at hr
                    dsimp only at hr
                    rwa [updateAt_length] at hr
                  have hmem : ((s.players.getD i defaultPlayer)).location ∈
                      reg.cityNames := by
                    rw [hs.1, locAt_setHand]
                    exact hplayers _ (getD_mem_of_lt _ _ _ hi')
                  constructor
                  · rw [players_removeAllCubes]
                    exact hs.1
                  · rw [removeAllCubes_conserve reg hnd _ hmem col c s]
                    exact hs.2
                · exact hs

theorem applyBuild_conserve (reg : Registry) (st : GameState) (u : Bool) (c : Color) :
    (applyBuild st u).1.supply c + boardSum reg (applyBuild st u).1 c =
      st.supply c + boardSum reg st c := by
  unfold applyBuild
  dsimp only
  repeat' split
  all_goals rfl

theorem applyShare_conserve (reg : Registry) (st : GameState)
    (card pname dir : String) (c : Color) :
    (applyShare st card pname dir).1.supply c +
        boardSum reg (applyShare st card pname dir).1 c =
      st.supply c + boardSum reg st c := by
  unfold applyShare
  dsimp only
  repeat' split
  all_goals rfl

theorem applyAction_conserve (reg : Registry) (hnd : reg.cityNames.Nodup)
    (st : GameState) (a : PAction)
    (hplayers : ∀ p ∈ st.players, p.location ∈ reg.cityNames)
    (hidx : st.currentPlayerIndex < st.players.length) (c : Color) :
    (applyAction reg st a).1.supply c + boardSum reg (applyAction reg st a).1 c =
      st.supply c + boardSum reg st c := by
  cases a with
  | passTurn => rfl
  | unknownAction t => rfl
  | move dest mt => exact applyMove_conserve reg hnd st dest mt c
  | treatDisease cs =>
    exact applyTreat_conserve reg hnd st cs
      (hplayers _ (getD_mem_of_lt _ _ _ hidx)) c
  | buildResearchStation u => exact applyBuild_conserve reg st u c
  | shareKnowledge card pname dir => exact applyShare_conserve reg st card pname dir c
  | discoverCure cs cards => exact applyCure_conserve reg hnd st cs cards hplayers c

theorem mem_of_headq {α : Type} {l : List α} {a : α} (h : l.head? = some a) :
    a ∈ l := by
  cases l with
  | nil => exact absurd h (by simp)
  | cons x xs =>
    rw [List.head?_cons] at h
    injection h with h
    subst h
    exact List.mem_cons_self x xs

theorem mem_of_getLastq {α : Type} :
    ∀ (l : List α) (a : α), l.getLast? = some a → a ∈ l
  | [], a, h => by simp at h
  | [x], a, h => by
    rw [List.getLast?_singleton] at h
    injection h with h
    subst h
    exact List.mem_cons_self x []
  | x :: y :: ys, a, h => by
    rw [List.getLast?_cons_cons] at h
    exact List.mem_cons_of_mem x (mem_of_getLastq (y :: ys) a h)

theorem epidemicStep_conserve (reg : Registry) (hnd : reg.cityNames.Nodup)
    (hcl : ∀ a ∈ reg.cityNames, ∀ d ∈ reg.conn a, d ∈ reg.cityNames)
    (shuffleI : List InfectionCard → List InfectionCard) (fuel : Nat)
    (st : GameState)
    (hdeck : ∀ ic ∈ st.infectionDeck, ic.cityName ∈ reg.cityNames) (c : Color) :
    (epidemicStep reg shuffleI fuel st).supply c +
        boardSum reg (epidemicStep reg shuffleI fuel st) c =
      st.supply c + boardSum reg st c := by
  unfold epidemicStep
  dsimp only
  cases h : st.infectionDeck.head? with
  | none => rfl
  | some ic =>
    have hmem : ic.cityName ∈ reg.cityNames := hdeck ic (mem_of_headq h)
    dsimp only
    refine foldlPreserve (fun s : GameState =>
        s.supply c + boardSum reg s c = st.supply c + boardSum reg st c)
      _ _ _ ?_ ?_
    · rfl
    · intro s n hn hs
      dsimp only
      rw [addCube_conserve reg hnd hcl c fuel s ic.cityName
        (reg.colorOf ic.cityName) hmem]
      exact hs

theorem infectOne_conserve (reg : Registry) (hnd : reg.cityNames.Nodup)
    (hcl : ∀ a ∈ reg.cityNames, ∀ d ∈ reg.conn a, d ∈ reg.cityNames)
    (shuffleI : List InfectionCard → List InfectionCard)
    (hsh : ∀ l x, x ∈ shuffleI l → x ∈ l) (fuel : Nat) (st : GameState)
    (hdeck : ∀ ic ∈ st.infectionDeck, ic.cityName ∈ reg.cityNames)
    (hdisc : ∀ ic ∈ st.infectionDiscard, ic.cityName ∈ reg.cityNames)
    (c : Color) :
    (infectOne reg shuffleI fuel st).1.supply c +
        boardSum reg (infectOne reg shuffleI fuel st).1 c =
      st.supply c + boardSum reg st c := by
  unfold infectOne
  by_cases he : st.infectionDeck.isEmpty = true ∧ ¬ st.infectionDiscard.isEmpty = true
  · rw [if_pos he]
    dsimp only
    cases h : (shuffleI st.infectionDiscard).getLast? with
    | none => rfl
    | some card =>
      have hmem : card.cityName ∈ reg.cityNames :=
        hdisc card (hsh _ _ (mem_of_getLastq _ _ h))
      dsimp only
      exact addCube_conserve reg hnd hcl c fuel _ card.cityName
        (reg.colorOf card.cityName) hmem
  · rw [if_neg he]
    dsimp only
    cases h : st.infectionDeck.getLast? with
    | none => rfl
    | some card =>
      have hmem : card.cityName ∈ reg.cityNames :=
        hdeck card (mem_of_getLastq _ _ h)
      dsimp only
      exact addCube_conserve reg hnd hcl c fuel _ card.cityName
        (reg.colorOf card.cityName) hmem

end Pandemic

/-- C5.  Cube conservation: per color, disease-cube supply plus cubes on
the board is preserved by every cube mutation of the Pandemic engine -
the shared add-cube/outbreak cascade (any fuel), every action resolved
by `_apply_action` (treating, medic auto-clears on cure, and the
cube-free actions), an epidemic's bottom-card triple infection, and each
infection-phase draw - given a well-formed registry (distinct city
names, adjacency closed over the city list), players standing on
registry cities, and infection cards naming registry cities; in
particular the invariant `supply + board = 24` of the claim is
preserved at every observation point. -/
theorem C5_cube_conservation :
    (∀ (reg : Pandemic.Registry), reg.cityNames.Nodup →
      (∀ a ∈ reg.cityNames, ∀ d ∈ reg.conn a, d ∈ reg.cityNames) →
      ∀ (fuel : Nat) (st : Pandemic.GameState) (city : String)
        (col : Pandemic.Color), city ∈ reg.cityNames →
        Pandemic.cubesConserved reg st →
        Pandemic.cubesConserved reg
          (Pandemic.addDiseaseCube reg fuel st city col).1) ∧
    (∀ (reg : Pandemic.Registry), reg.cityNames.Nodup →
      ∀ (st : Pandemic.GameState) (a : Pandemic.PAction),
        (∀ p ∈ st.players, p.location ∈ reg.cityNames) →
        st.currentPlayerIndex < st.players.length →
        Pandemic.cubesConserved reg st →
        Pandemic.cubesConserved reg (Pandemic.applyAction reg st a).1) ∧
    (∀ (reg : Pandemic.Registry), reg.cityNames.Nodup →
      (∀ a ∈ reg.cityNames, ∀ d ∈ reg.conn a, d ∈ reg.cityNames) →
      ∀ (shuffleI : List Pandemic.InfectionCard → List Pandemic.InfectionCard)
        (fuel : Nat) (st : Pandemic.GameState),
        (∀ ic ∈ st.infectionDeck, ic.cityName ∈ reg.cityNames) →
        Pandemic.cubesConserved reg st →
        Pandemic.cubesConserved reg
          (Pandemic.epidemicStep reg shuffleI fuel st)) ∧
    (∀ (reg : Pandemic.Registry), reg.cityNames.Nodup →
      (∀ a ∈ reg.cityNames, ∀ d ∈ reg.conn a, d ∈ reg.cityNames) →
      ∀ (shuffleI : List Pandemic.InfectionCard → List Pandemic.InfectionCard),
        (∀ l, ∀ x ∈ shuffleI l, x ∈ l) →
        ∀ (fuel : Nat) (st : Pandemic.GameState),
        (∀ ic ∈ st.infectionDeck, ic.cityName ∈ reg.cityNames) →
        (∀ ic ∈ st.infectionDiscard, ic.cityName ∈ reg.cityNames) →
        Pandemic.cubesConserved reg st →
        Pandemic.cubesConserved reg
          (Pandemic.infectOne reg shuffleI fuel st).1) := by
  refine ⟨?_, ?_, ?_, ?_⟩
  · intro reg hnd hcl fuel st city col hm hcons cc
    rw [Pandemic.addCube_conserve reg hnd hcl cc fuel st city col hm]
    exact hcons cc
  · intro reg hnd st a hplayers hidx hcons cc
    rw [Pandemic.applyAction_conserve reg hnd st a hplayers hidx cc]
    exact hcons cc
  · intro reg hnd hcl shuffleI fuel st hdeck hcons cc
    rw [Pandemic.epidemicStep_conserve reg hnd hcl shuffleI fuel st hdeck cc]
    exact hcons cc
  · intro reg hnd hcl shuffleI hsh fuel st hdeck hdisc hcons cc
    rw [Pandemic.infectOne_conserve reg hnd hcl shuffleI hsh fuel st hdeck hdisc cc]
    exact hcons cc

/-- C5, witness: the two-city registry with both cities at 3 blue cubes
and a supply of 18 satisfies the invariant, and still does after a cube
addition to city A (which triggers the outbreak cascade). -/
theorem C5_cube_conservation_witness :
    Pandemic.cubesConserved twoCityReg twoCitySt ∧
    Pandemic.cubesConserved twoCityReg
      (Pandemic.addDiseaseCube twoCityReg 100 twoCitySt "A" .blue).1 :=
  have hb : Pandemic.cubesConserved twoCityReg twoCitySt := by
    intro col
    cases col <;> decide
  ⟨hb, C5_cube_conservation.1 twoCityReg (by decide) (by decide) 100 twoCitySt
    "A" .blue (by decide) hb⟩

namespace Pandemic

theorem sum_map_updateAt {α : Type} (g : α → Nat) (d : α) :
    ∀ (l : List α) (i : Nat) (f : α → α), i < l.length →
      ((updateAt l i f).map g).sum + g (l.getD i d) =
        (l.map g).sum + g (f (l.getD i d))
  | [], i, f, h => by simp at h
  | x :: xs, 0, f, h => by
    simp only [updateAt, List.map_cons, List.sum_cons, List.getD_cons_zero]
    omega
  | x :: xs, n + 1, f, h => by
    simp only [updateAt, List.map_cons, List.sum_cons, List.getD_cons_succ]
    have := sum_map_updateAt g d xs n f (by simpa using h)
    omega

theorem findFirstIdx_lt {α : Type} (p : α → Bool) :
    ∀ (l : List α) (i : Nat), findFirstIdx p l = some i → i < l.length
  | [], i, h => by simp [findFirstIdx] at h
  | x :: xs, i, h => by
    unfold findFirstIdx at h
    by_cases hp : p x = true
    · rw [if_pos hp] at h
      injection h with h
      subst h
      simp
    · rw [if_neg hp] at h
      cases hx : findFirstIdx p xs with
      | none => rw [hx] at h; simp at h
      | some j =>
        rw [hx] at h
        injection h with h
        have hji : j + 1 = i := h
        have := findFirstIdx_lt p xs j hx
        simp only [List.length_cons]
        omega

theorem length_erase_mem {l : List String} {a : String} (h : a ∈ l) :
    (l.erase a).length + 1 = l.length := by
  rw [List.length_erase_of_mem h]
  have h1 : l ≠ [] := List.ne_nil_of_mem h
  have h2 : 0 < l.length := List.length_pos.mpr h1
  omega

theorem length_foldl_erase :
    ∀ (cards hand : List String), cards.Nodup → (∀ c ∈ cards, c ∈ hand) →
      (cards.foldl (fun h c => h.erase c) hand).length + cards.length = hand.length
  | [], hand, _, _ => by simp
  | c :: cs, hand, hnd, hmem => by
    simp only [List.foldl_cons, List.length_cons]
    have hc : c ∈ hand := hmem c (List.mem_cons_self c cs)
    have hcn : c ∉ cs := (List.nodup_cons.mp hnd).1
    have hmem' : ∀ x ∈ cs, x ∈ hand.erase c := by
      intro x hx
      have hne : x ≠ c := fun he => hcn (he ▸ hx)
      exact (List.mem_erase_of_ne hne).mpr (hmem x (List.mem_cons_of_mem c hx))
    have h1 := length_foldl_erase cs (hand.erase c) (List.nodup_cons.mp hnd).2 hmem'
    have h2 := length_erase_mem hc
    omega

theorem totalPlayerCards_removeAllCubes (s : GameState) (c : String) (col : Color) :
    totalPlayerCards (removeAllCubes s c col) = totalPlayerCards s := by
  unfold removeAllCubes
  split <;> rfl

theorem totalPlayerCards_medicAutoClear (st : GameState) (c : String) :
    totalPlayerCards (medicAutoClear st c) = totalPlayerCards st := by
  unfold medicAutoClear
  refine foldlPreserve (fun s : GameState =>
    totalPlayerCards s = totalPlayerCards st) _ _ _ rfl ?_
  intro s col hmem hs
  dsimp only
  split
  · rw [totalPlayerCards_removeAllCubes]
    exact hs
  · exact hs

theorem totalPlayerCards_setCur (st : GameState) (q : Player)
    (hidx : st.currentPlayerIndex < st.players.length) :
    totalPlayerCards (setCurrentPlayer st q) + (currentPlayer st).hand.length =
      totalPlayerCards st + q.hand.length := by
  unfold totalPlayerCards setCurrentPlayer currentPlayer
  dsimp only
  have := sum_map_updateAt (fun r : Player => r.hand.length) defaultPlayer
    st.players st.currentPlayerIndex (fun _ => q) hidx
  dsimp only at this
  omega

theorem totalPlayerCards_finishMove (st : GameState) (d : String)
    (hidx : st.currentPlayerIndex < st.players.length) :
    totalPlayerCards (finishMove st d) = totalPlayerCards st := by
  unfold finishMove
  dsimp only
  have h := totalPlayerCards_setCur st
    { currentPlayer st with location := d } hidx
  dsimp only at h
  split
  · rw [totalPlayerCards_medicAutoClear]
    omega
  · omega

theorem totalPlayerCards_addDiscard (s : GameState) (cs : List PlayerCard) :
    totalPlayerCards { s with playerDiscard := s.playerDiscard ++ cs } =
      totalPlayerCards s + cs.length := by
  unfold totalPlayerCards
  dsimp only
  rw [List.length_append]
  omega

theorem totalPlayerCards_statusUpd (s : GameState) (f : Color → DiseaseStatus) :
    totalPlayerCards { s with status := f } = totalPlayerCards s := rfl

theorem totalPlayerCards_discardStatusUpd (s : GameState) (cs2 : List PlayerCard)
    (f : Color → DiseaseStatus) :
    totalPlayerCards { s with playerDiscard := s.playerDiscard ++ cs2, status := f } =
      totalPlayerCards s + cs2.length := by
  unfold totalPlayerCards
  dsimp only
  rw [List.length_append]
  omega

theorem applyMove_cards (reg : Registry) (st : GameState) (dest mt : String)
    (hidx : st.currentPlayerIndex < st.players.length) :
    totalPlayerCards (applyMove reg st dest mt).1 = totalPlayerCards st := by
  unfold applyMove
  by_cases h0 : dest = ""
  · rw [if_pos h0]
  · rw [if_neg h0]
    by_cases h1 : dest ∉ reg.cityNames
    · rw [if_pos h1]
    · rw [if_neg h1]
      by_cases h2 : mt = "regular"
      · rw [if_pos h2]
        by_cases h3 : dest ∉ reg.conn (currentPlayer st).location
        · rw [if_pos h3]
        · rw [if_neg h3]
          exact totalPlayerCards_finishMove st dest hidx
      · rw [if_neg h2]
        by_cases h4 : mt = "direct_flight"
        · rw [if_pos h4]
          by_cases h5 : dest ∉ (currentPlayer st).hand
          · rw [if_pos h5]
          · rw [if_neg h5]
            have hm : dest ∈ (currentPlayer st).hand := not_not.mp h5
            dsimp only
            refine Eq.trans (totalPlayerCards_finishMove _ dest ?_) ?_
            · dsimp only [setCurrentPlayer]
              rw [updateAt_length]
              exact hidx
            · rw [totalPlayerCards_addDiscard]
              have h := totalPlayerCards_setCur st
                { currentPlayer st with hand := (currentPlayer st).hand.erase dest } hidx
              dsimp only at h
              have h2 := length_erase_mem hm
              simp only [List.length_singleton]
              omega
        · rw [if_neg h4]
          by_cases h6 : mt = "charter_flight"
          · rw [if_pos h6]
            by_cases h7 : (currentPlayer st).location ∉ (currentPlayer st).hand
            · rw [if_pos h7]
            · rw [if_neg h7]
              have hm : (currentPlayer st).location ∈ (currentPlayer st).hand :=
                not_not.mp h7
              dsimp only
              refine Eq.trans (totalPlayerCards_finishMove _ dest ?_) ?_
              · dsimp only [setCurrentPlayer]
                rw [updateAt_length]
                exact hidx
              · rw [totalPlayerCards_addDiscard]
                have h := totalPlayerCards_setCur st
                  { currentPlayer st with
                    hand := (currentPlayer st).hand.erase (currentPlayer st).location } hidx
                dsimp only at h
                have h2 := length_erase_mem hm
                simp only [List.length_singleton]
                omega
          · rw [if_neg h6]
            by_cases h8 : mt = "shuttle_flight"
            · rw [if_pos h8]
              by_cases h9 : ¬ st.stations (currentPlayer st).location
              · rw [if_pos h9]
              · rw [if_neg h9]
                by_cases h10 : ¬ st.stations dest
                · rw [if_pos h10]
                · rw [if_neg h10]
                  exact totalPlayerCards_finishMove st dest hidx
            · rw [if_neg h8]
              by_cases h11 : mt = "operations_expert"
              · rw [if_pos h11]
                by_cases h12 : (currentPlayer st).role ≠ Role.operationsExpert
                · rw [if_pos h12]
                · rw [if_neg h12]
                  by_cases h13 : ¬ st.stations (currentPlayer st).location
                  · rw [if_pos h13]
                  · rw [if_neg h13]
                    cases hh : (currentPlayer st).hand with
                    | nil => rfl
                    | cons cardToDiscard rest =>
                      have hm : cardToDiscard ∈ cardToDiscard :: rest :=
                        List.mem_cons_self _ _
                      dsimp only
                      refine Eq.trans (totalPlayerCards_finishMove _ dest ?_) ?_
                      · dsimp only [setCurrentPlayer]
                        rw [updateAt_length]
                        exact hidx
                      · rw [totalPlayerCards_addDiscard]
                        have h := totalPlayerCards_setCur st
                          { currentPlayer st with
                            hand := (cardToDiscard :: rest).erase cardToDiscard } hidx
                        rw [hh] at h
                        dsimp only at h
                        have h2 := length_erase_mem hm
                        simp only [List.length_singleton]
                        omega
              · rw [if_neg h11]

theorem applyTreat_cards (st : GameState) (cs : String) :
    totalPlayerCards (applyTreat st cs).1 = totalPlayerCards st := by
  unfold applyTreat
  split
  · rfl
  · cases hp : parseColor cs with
    | none => rfl
    | some col =>
      dsimp only
      by_cases h0 : st.cubes (currentPlayer st).location col ≤ 0
      · rw [if_pos h0]
      · rw [if_neg h0]
        by_cases hmed : (currentPlayer st).role = Role.medic
        · rw [if_pos hmed]
          exact totalPlayerCards_removeAllCubes _ _ _
        · rw [if_neg hmed]
          by_cases hcur : st.status col ≠ DiseaseStatus.active
          · rw [if_pos hcur]
            exact totalPlayerCards_removeAllCubes _ _ _
          · rw [if_neg hcur]
            rfl

theorem applyBuild_cards (st : GameState) (u : Bool)
    (hidx : st.currentPlayerIndex < st.players.length) :
    totalPlayerCards (applyBuild st u).1 = totalPlayerCards st := by
  unfold applyBuild
  dsimp only
  by_cases h0 : st.stations (currentPlayer st).location = true
  · rw [if_pos h0]
  · rw [if_neg h0]
    by_cases h1 : st.placedStations ≥ st.totalStations
    · rw [if_pos h1]
    · rw [if_neg h1]
      by_cases h2 : u = true ∧ (currentPlayer st).role = Role.operationsExpert
      · rw [if_pos h2]
        rfl
      · rw [if_neg h2]
        by_cases h3 : (currentPlayer st).location ∉ (currentPlayer st).hand
        · rw [if_pos h3]
        · rw [if_neg h3]
          have hm : (currentPlayer st).location ∈ (currentPlayer st).hand :=
            not_not.mp h3
          dsimp only
          have h := totalPlayerCards_setCur st
            { currentPlayer st with
              hand := (currentPlayer st).hand.erase (currentPlayer st).location } hidx
          dsimp only at h
          have h2 := length_erase_mem hm
          unfold totalPlayerCards at h ⊢
          dsimp only
          simp only [List.length_append, List.length_singleton]
          omega

theorem applyShare_cards (st : GameState) (card pname dir : String)
    (hidx : st.currentPlayerIndex < st.players.length) :
    totalPlayerCards (applyShare st card pname dir).1 = totalPlayerCards st := by
  unfold applyShare
  split
  · rfl
  · split
    · rfl
    · cases hf : findFirstIdx (fun q => q.name = pname) st.players with
      | none => rfl
      | some ti =>
        have hti : ti < st.players.length := findFirstIdx_lt _ _ _ hf
        dsimp only
        split
        · rfl
        · by_cases hc1 : ¬ (((currentPlayer st).role = Role.researcher ∧ dir = "give") ∨
              ((st.players.getD ti defaultPlayer).role = Role.researcher ∧ dir ≠ "give")) ∧
            card ≠ (st.players.getD
              (if dir = "give" then st.currentPlayerIndex else ti) defaultPlayer).location
          · rw [if_pos hc1]
          · rw [if_neg hc1]
            by_cases hc2 : card ∉ (st.players.getD
                (if dir = "give" then st.currentPlayerIndex else ti) defaultPlayer).hand
            · rw [if_pos hc2]
            · rw [if_neg hc2]
              have hm : card ∈ (st.players.getD
                  (if dir = "give" then st.currentPlayerIndex else ti)
                  defaultPlayer).hand := not_not.mp hc2
              have hg : (if dir = "give" then st.currentPlayerIndex else ti) <
                  st.players.length := by
                split
                · exact hidx
                · exact hti
              have hr : (if dir = "give" then ti else st.currentPlayerIndex) <
                  st.players.length := by
                split
                · exact hti
                · exact hidx
              unfold totalPlayerCards
              dsimp only
              have h1 := sum_map_updateAt (fun r : Player => r.hand.length)
                defaultPlayer st.players
                (if dir = "give" then st.currentPlayerIndex else ti)
                (fun q => { q with hand := q.hand.erase card }) hg
              have h2 := sum_map_updateAt (fun r : Player => r.hand.length)
                defaultPlayer
                (updateAt st.players
                  (if dir = "give" then st.currentPlayerIndex else ti)
                  (fun q => { q with hand := q.hand.erase card }))
                (if dir = "give" then ti else st.currentPlayerIndex)
                (fun q => { q with hand := q.hand ++ [card] })
                (by rw [updateAt_length]; exact hr)
              dsimp only at h1 h2
              simp only [List.length_append, List.length_singleton] at h2
              have h3 := length_erase_mem hm
              omega

theorem applyCure_cards (reg : Registry) (st : GameState) (cs : String)
    (cards : List String) (hidx : st.currentPlayerIndex < st.players.length)
    (hnodup : cards.Nodup) :
    totalPlayerCards (applyCure reg st cs cards).1 = totalPlayerCards st := by
  unfold applyCure
  split
  · rfl
  · cases hp : parseColor cs with
    | none => rfl
    | some col =>
      dsimp only
      by_cases h1 : st.status col ≠ DiseaseStatus.active
      · rw [if_pos h1]
      · rw [if_neg h1]
        by_cases h2 : ¬ st.stations (currentPlayer st).location
        · rw [if_pos h2]
        · rw [if_neg h2]
          by_cases h3 : cards.length <
              (if (currentPlayer st).role = Role.scientist then 4 else 5)
          · rw [if_pos h3]
          · rw [if_neg h3]
            by_cases h4 : ¬ (∀ cc ∈ cards, cc ∈ (currentPlayer st).hand)
            · rw [if_pos h4]
            · rw [if_neg h4]
              by_cases h5 : ¬ (∀ cc ∈ cards, cc ∈ reg.cityNames → reg.colorOf cc = col)
              · rw [if_pos h5]
              · rw [if_neg h5]
                have hmem : ∀ cc ∈ cards, cc ∈ (currentPlayer st).hand := not_not.mp h4
                dsimp only
                refine foldlPreserve (fun s : GameState =>
                    totalPlayerCards s = totalPlayerCards st) _ _ _ ?_ ?_
                · dsimp only
                  rw [totalPlayerCards_discardStatusUpd]
                  have h := totalPlayerCards_setCur st
                    { currentPlayer st with
                      hand := cards.foldl (fun h c => h.erase c)
                        (currentPlayer st).hand } hidx
                  dsimp only at h
                  have hl := length_foldl_erase cards (currentPlayer st).hand
                    hnodup hmem
                  rw [List.length_map]
                  omega
                · intro s i hi hs
                  dsimp only
                  split
                  · rw [totalPlayerCards_removeAllCubes]
                    exact hs
                  · exact hs

theorem applyAction_cards (reg : Registry) (st : GameState) (a : PAction)
    (hidx : st.currentPlayerIndex < st.players.length)
    (hnodup : ∀ cs cards, a = PAction.discoverCure cs cards → cards.Nodup) :
    totalPlayerCards (applyAction reg st a).1 = totalPlayerCards st := by
  cases a with
  | passTurn => rfl
  | unknownAction t => rfl
  | move dest mt => exact applyMove_cards reg st dest mt hidx
  | treatDisease cs => exact applyTreat_cards st cs
  | buildResearchStation u => exact applyBuild_cards st u hidx
  | shareKnowledge card pname dir => exact applyShare_cards st card pname dir hidx
  | discoverCure cs cards =>
    exact applyCure_cards reg st cs cards hidx (hnodup cs cards rfl)

theorem addCube_frame (reg : Registry) :
    ∀ (fuel : Nat) (st : GameState) (city : String) (col : Color),
      (addDiseaseCube reg fuel st city col).1.players = st.players ∧
      (addDiseaseCube reg fuel st city col).1.playerDeck = st.playerDeck ∧
      (addDiseaseCube reg fuel st city col).1.playerDiscard = st.playerDiscard ∧
      (addDiseaseCube reg fuel st city col).1.infectionDeck = st.infectionDeck ∧
      (addDiseaseCube reg fuel st city col).1.infectionDiscard = st.infectionDiscard := by
  intro fuel
  induction fuel with
  | zero => intro st city col; exact ⟨rfl, rfl, rfl, rfl, rfl⟩
  | succ n ih =>
    intro st city col
    simp only [addDiseaseCube]
    split
    · exact ⟨rfl, rfl, rfl, rfl, rfl⟩
    · split
      · exact ⟨rfl, rfl, rfl, rfl, rfl⟩
      · split
        · split
          · exact ⟨rfl, rfl, rfl, rfl, rfl⟩
          · refine foldlPreserve (fun acc : GameState × Bool =>
                acc.1.players = st.players ∧ acc.1.playerDeck = st.playerDeck ∧
                acc.1.playerDiscard = st.playerDiscard ∧
                acc.1.infectionDeck = st.infectionDeck ∧
                acc.1.infectionDiscard = st.infectionDiscard) _ _ _
              ⟨rfl, rfl, rfl, rfl, rfl⟩ ?_
            intro acc nn hmem hacc
            dsimp only
            split
            · exact hacc
            · split
              · exact hacc
              · obtain ⟨ha, hb, hc, hd, he⟩ := ih acc.1 nn col
                exact ⟨ha.trans hacc.1, hb.trans hacc.2.1, hc.trans hacc.2.2.1,
                  hd.trans hacc.2.2.2.1, he.trans hacc.2.2.2.2⟩
        · exact ⟨rfl, rfl, rfl, rfl, rfl⟩

theorem totalPlayerCards_addCube (reg : Registry) (fuel : Nat) (st : GameState)
    (city : String) (col : Color) :
    totalPlayerCards (addDiseaseCube reg fuel st city col).1 = totalPlayerCards st := by
  obtain ⟨h1, h2, h3, _, _⟩ := addCube_frame reg fuel st city col
  unfold totalPlayerCards
  rw [h1, h2, h3]

theorem cascadeFold_players (reg : Registry) (fuel : Nat) (cn : String) (co : Color)
    (b : GameState) :
    ((List.range 3).foldl (fun s _ => (addDiseaseCube reg fuel s cn co).1) b).players =
      b.players := by
  refine foldlPreserve (fun s : GameState => s.players = b.players) _ _ _ rfl ?_
  intro s i hi hs
  exact ((addCube_frame reg fuel s cn co).1).trans hs

theorem cascadeFold_pdeck (reg : Registry) (fuel : Nat) (cn : String) (co : Color)
    (b : GameState) :
    ((List.range 3).foldl (fun s _ => (addDiseaseCube reg fuel s cn co).1) b).playerDeck =
      b.playerDeck := by
  refine foldlPreserve (fun s : GameState => s.playerDeck = b.playerDeck) _ _ _ rfl ?_
  intro s i hi hs
  exact ((addCube_frame reg fuel s cn co).2.1).trans hs

theorem cascadeFold_pdisc (reg : Registry) (fuel : Nat) (cn : String) (co : Color)
    (b : GameState) :
    ((List.range 3).foldl (fun s _ => (addDiseaseCube reg fuel s cn co).1) b).playerDiscard =
      b.playerDiscard := by
  refine foldlPreserve (fun s : GameState => s.playerDiscard = b.playerDiscard) _ _ _ rfl ?_
  intro s i hi hs
  exact ((addCube_frame reg fuel s cn co).2.2.1).trans hs

theorem cascadeFold_ideck (reg : Registry) (fuel : Nat) (cn : String) (co : Color)
    (b : GameState) :
    ((List.range 3).foldl (fun s _ => (addDiseaseCube reg fuel s cn co).1) b).infectionDeck =
      b.infectionDeck := by
  refine foldlPreserve (fun s : GameState => s.infectionDeck = b.infectionDeck) _ _ _ rfl ?_
  intro s i hi hs
  exact ((addCube_frame reg fuel s cn co).2.2.2.1).trans hs

theorem cascadeFold_idisc (reg : Registry) (fuel : Nat) (cn : String) (co : Color)
    (b : GameState) :
    ((List.range 3).foldl (fun s _ => (addDiseaseCube reg fuel s cn co).1) b).infectionDiscard =
      b.infectionDiscard := by
  refine foldlPreserve (fun s : GameState => s.infectionDiscard = b.infectionDiscard) _ _ _ rfl ?_
  intro s i hi hs
  exact ((addCube_frame reg fuel s cn co).2.2.2.2).trans hs

theorem epidemicStep_pcards (reg : Registry)
    (shuffleI : List InfectionCard → List InfectionCard) (fuel : Nat)
    (st : GameState) :
    totalPlayerCards (epidemicStep reg shuffleI fuel st) = totalPlayerCards st := by
  unfold epidemicStep
  dsimp only
  cases h : st.infectionDeck.head? with
  | none => rfl
  | some c =>
    dsimp only
    unfold totalPlayerCards
    dsimp only
    rw [cascadeFold_players, cascadeFold_pdeck, cascadeFold_pdisc]

theorem epidemicStep_infTotal (reg : Registry)
    (shuffleI : List InfectionCard → List InfectionCard)
    (hlen : ∀ l, (shuffleI l).length = l.length) (fuel : Nat) (st : GameState) :
    totalInfectionCards (epidemicStep reg shuffleI fuel st) =
      totalInfectionCards st := by
  unfold epidemicStep
  dsimp only
  cases hd : st.infectionDeck with
  | nil =>
    unfold totalInfectionCards
    dsimp only
    rw [hd]
    dsimp only [List.head?]
    simp [hlen, hd]
  | cons a as =>
    unfold totalInfectionCards
    dsimp only
    rw [hd]
    dsimp only [List.head?]
    rw [cascadeFold_ideck, cascadeFold_idisc]
    dsimp only
    simp only [List.tail_cons, List.length_append, List.length_cons, List.length_nil,
      hlen]
    omega

theorem addCube_players (reg : Registry) (fuel : Nat) (st : GameState)
    (city : String) (col : Color) :
    (addDiseaseCube reg fuel st city col).1.players = st.players :=
  (addCube_frame reg fuel st city col).1

theorem addCube_pdeck (reg : Registry) (fuel : Nat) (st : GameState)
    (city : String) (col : Color) :
    (addDiseaseCube reg fuel st city col).1.playerDeck = st.playerDeck :=
  (addCube_frame reg fuel st city col).2.1

theorem addCube_pdisc (reg : Registry) (fuel : Nat) (st : GameState)
    (city : String) (col : Color) :
    (addDiseaseCube reg fuel st city col).1.playerDiscard = st.playerDiscard :=
  (addCube_frame reg fuel st city col).2.2.1

theorem addCube_ideck (reg : Registry) (fuel : Nat) (st : GameState)
    (city : String) (col : Color) :
    (addDiseaseCube reg fuel st city col).1.infectionDeck = st.infectionDeck :=
  (addCube_frame reg fuel st city col).2.2.2.1

theorem addCube_idisc (reg : Registry) (fuel : Nat) (st : GameState)
    (city : String) (col : Color) :
    (addDiseaseCube reg fuel st city col).1.infectionDiscard = st.infectionDiscard :=
  (addCube_frame reg fuel st city col).2.2.2.2

theorem infectOne_cards (reg : Registry)
    (shuffleI : List InfectionCard → List InfectionCard)
    (hlen : ∀ l, (shuffleI l).length = l.length) (fuel : Nat) (st : GameState) :
    totalPlayerCards (infectOne reg shuffleI fuel st).1 = totalPlayerCards st ∧
    totalInfectionCards (infectOne reg shuffleI fuel st).1 =
      totalInfectionCards st := by
  unfold infectOne
  by_cases he : st.infectionDeck.isEmpty = true ∧ ¬ st.infectionDiscard.isEmpty = true
  · rw [if_pos he]
    dsimp only
    have h0 : st.infectionDeck = [] := List.isEmpty_iff.mp he.1
    have hdne : st.infectionDiscard ≠ [] := by
      intro hx
      exact he.2 (by rw [hx]; rfl)
    have hdpos : 0 < st.infectionDiscard.length := List.length_pos.mpr hdne
    cases hL : (shuffleI st.infectionDiscard).getLast? with
    | none =>
      constructor
      · rfl
      · unfold totalInfectionCards
        dsimp only
        rw [hlen, h0]
        simp
    | some card =>
      constructor
      · unfold totalPlayerCards
        dsimp only
        rw [addCube_players, addCube_pdeck, addCube_pdisc]
      · unfold totalInfectionCards
        dsimp only
        rw [addCube_ideck, addCube_idisc]
        dsimp only
        rw [List.length_dropLast, hlen, h0]
        simp
        omega
  · rw [if_neg he]
    dsimp only
    cases hL : st.infectionDeck.getLast? with
    | none => exact ⟨rfl, rfl⟩
    | some card =>
      have hne : st.infectionDeck ≠ [] := by
        intro hx
        rw [hx] at hL
        simp at hL
      have hpos : 0 < st.infectionDeck.length := List.length_pos.mpr hne
      constructor
      · unfold totalPlayerCards
        dsimp only
        rw [addCube_players, addCube_pdeck, addCube_pdisc]
      · unfold totalInfectionCards
        dsimp only
        rw [addCube_ideck, addCube_idisc]
        dsimp only
        rw [List.length_dropLast, List.length_append]
        simp
        omega

theorem drawStep_trichotomy (reg : Registry)
    (shuffleI : List InfectionCard → List InfectionCard)
    (hlen : ∀ l, (shuffleI l).length = l.length) (fuel : Nat) (st : GameState)
    (hidx : st.currentPlayerIndex < st.players.length) :
    ((drawPlayerCardStep reg shuffleI fuel st).2 = DrawResult.deckEmpty ∧
      (drawPlayerCardStep reg shuffleI fuel st).1 = st) ∨
    ((drawPlayerCardStep reg shuffleI fuel st).2 = DrawResult.epidemic ∧
      totalPlayerCards (drawPlayerCardStep reg shuffleI fuel st).1 + 1 =
        totalPlayerCards st ∧
      totalInfectionCards (drawPlayerCardStep reg shuffleI fuel st).1 =
        totalInfectionCards st) ∨
    ((∃ name, (drawPlayerCardStep reg shuffleI fuel st).2 = DrawResult.drew name) ∧
      totalPlayerCards (drawPlayerCardStep reg shuffleI fuel st).1 =
        totalPlayerCards st ∧
      totalInfectionCards (drawPlayerCardStep reg shuffleI fuel st).1 =
        totalInfectionCards st) := by
  unfold drawPlayerCardStep
  cases hL : st.playerDeck.getLast? with
  | none => exact Or.inl ⟨rfl, rfl⟩
  | some card =>
    have hne : st.playerDeck ≠ [] := by
      intro hx
      rw [hx] at hL
      simp at hL
    have hpos : 0 < st.playerDeck.length := List.length_pos.mpr hne
    dsimp only
    by_cases he : card.isEpidemic = true
    · rw [if_pos he]
      refine Or.inr (Or.inl ⟨rfl, ?_, ?_⟩)
      · rw [epidemicStep_pcards]
        unfold totalPlayerCards
        dsimp only
        rw [List.length_dropLast]
        omega
      · rw [epidemicStep_infTotal reg shuffleI hlen]
        rfl
    · rw [if_neg he]
      try dsimp only
      have hb := totalPlayerCards_setCur { st with playerDeck := st.playerDeck.dropLast }
        { currentPlayer { st with playerDeck := st.playerDeck.dropLast } with
          hand := (currentPlayer { st with playerDeck := st.playerDeck.dropLast }).hand ++
            [card.name] } hidx
      dsimp only at hb
      simp only [List.length_append, List.length_singleton] at hb
      have h2 : totalPlayerCards { st with playerDeck := st.playerDeck.dropLast } + 1 =
          totalPlayerCards st := by
        unfold totalPlayerCards
        dsimp only
        rw [List.length_dropLast]
        omega
      split
      · split
        · refine Or.inr (Or.inr ⟨⟨card.name, rfl⟩, ?_, rfl⟩)
          dsimp only
          omega
        · rename_i discardName heq
          have hmem := mem_of_headq heq
          have ha := totalPlayerCards_setCur
            (setCurrentPlayer { st with playerDeck := st.playerDeck.dropLast }
              { currentPlayer { st with playerDeck := st.playerDeck.dropLast } with
                hand := (currentPlayer { st with playerDeck := st.playerDeck.dropLast }).hand ++
                  [card.name] })
            { currentPlayer (setCurrentPlayer { st with playerDeck := st.playerDeck.dropLast }
                { currentPlayer { st with playerDeck := st.playerDeck.dropLast } with
                  hand := (currentPlayer { st with playerDeck := st.playerDeck.dropLast }).hand ++
                    [card.name] }) with
              hand := (currentPlayer (setCurrentPlayer { st with playerDeck := st.playerDeck.dropLast }
                { currentPlayer { st with playerDeck := st.playerDeck.dropLast } with
                  hand := (currentPlayer { st with playerDeck := st.playerDeck.dropLast }).hand ++
                    [card.name] })).hand.erase discardName }
            (by dsimp only [setCurrentPlayer]; rw [updateAt_length]; exact hidx)
          dsimp only at ha
          have h3 := length_erase_mem hmem
          refine Or.inr (Or.inr ⟨⟨card.name, rfl⟩, ?_, rfl⟩)
          dsimp only
          rw [totalPlayerCards_addDiscard]
          simp only [List.length_singleton]
          omega
      · refine Or.inr (Or.inr ⟨⟨card.name, rfl⟩, ?_, rfl⟩)
        dsimp only
        omega

end Pandemic

namespace CID

theorem damageSystem_deck (st : GameState) (sys : SystemName) (w : Bool) :
    (damageSystem st sys w).crisisDeck = st.crisisDeck := by
  unfold damageSystem
  split
  · rfl
  · dsimp only
    split
    all_goals rfl
  · rfl

theorem damageSystem_disc (st : GameState) (sys : SystemName) (w : Bool) :
    (damageSystem st sys w).crisisDiscard = st.crisisDiscard := by
  unfold damageSystem
  split
  · rfl
  · dsimp only
    split
    all_goals rfl
  · rfl

theorem crisisSystemDamage_deck (st : GameState) (pick : Nat) (w : Bool) :
    (crisisSystemDamage st pick w).crisisDeck = st.crisisDeck := by
  unfold crisisSystemDamage
  dsimp only
  split
  · rfl
  · exact damageSystem_deck _ _ _

theorem crisisSystemDamage_disc (st : GameState) (pick : Nat) (w : Bool) :
    (crisisSystemDamage st pick w).crisisDiscard = st.crisisDiscard := by
  unfold crisisSystemDamage
  dsimp only
  split
  · rfl
  · exact damageSystem_disc _ _ _

theorem rcStage1_deck (crisis : CrisisCard) (o : Oracle) (s : GameState) :
    (if crisis.effectType = "system_damage" then
        crisisSystemDamage s o.pick true
      else if crisis.effectType = "new_threat" then
        if s.activeThreats.length < 4 then
          { s with activeThreats := s.activeThreats ++ [pickThreat o.pick] }
        else { s with alertLevel := escalateAlert s.alertLevel }
      else if crisis.effectType = "action_restriction" then
        { s with characters := restrictAll s.characters }
      else s).crisisDeck = s.crisisDeck := by
  repeat' split
  all_goals (first | rfl | exact crisisSystemDamage_deck _ _ _)

theorem rcStage1_disc (crisis : CrisisCard) (o : Oracle) (s : GameState) :
    (if crisis.effectType = "system_damage" then
        crisisSystemDamage s o.pick true
      else if crisis.effectType = "new_threat" then
        if s.activeThreats.length < 4 then
          { s with activeThreats := s.activeThreats ++ [pickThreat o.pick] }
        else { s with alertLevel := escalateAlert s.alertLevel }
      else if crisis.effectType = "action_restriction" then
        { s with characters := restrictAll s.characters }
      else s).crisisDiscard = s.crisisDiscard := by
  repeat' split
  all_goals (first | rfl | exact crisisSystemDamage_disc _ _ _)

theorem rcStage2_deck (crisis : CrisisCard) (o : Oracle) (s : GameState) :
    (if s.systems .shields = SystemStatus.offline then
        if crisis.effectType = "system_damage" then
          crisisSystemDamage s o.pick2 false
        else if crisis.effectType = "new_threat" ∧ s.activeThreats.length < 4 then
          { s with activeThreats := s.activeThreats ++ [pickThreat o.pick2] }
        else if crisis.effectType = "action_restriction" then
          { s with characters := restrictAll s.characters }
        else s
      else s).crisisDeck = s.crisisDeck := by
  repeat' split
  all_goals (first | rfl | exact crisisSystemDamage_deck _ _ _)

theorem rcStage2_disc (crisis : CrisisCard) (o : Oracle) (s : GameState) :
    (if s.systems .shields = SystemStatus.offline then
        if crisis.effectType = "system_damage" then
          crisisSystemDamage s o.pick2 false
        else if crisis.effectType = "new_threat" ∧ s.activeThreats.length < 4 then
          { s with activeThreats := s.activeThreats ++ [pickThreat o.pick2] }
        else if crisis.effectType = "action_restriction" then
          { s with characters := restrictAll s.characters }
        else s
      else s).crisisDiscard = s.crisisDiscard := by
  repeat' split
  all_goals (first | rfl | exact crisisSystemDamage_disc _ _ _)

theorem rcStage3_deck (s : GameState) :
    (if s.alertLevel = AlertLevel.red then
        { s with activeThreats := strengthenAll s.activeThreats }
      else s).crisisDeck = s.crisisDeck := by
  split
  all_goals rfl

theorem rcStage3_disc (s : GameState) :
    (if s.alertLevel = AlertLevel.red then
        { s with activeThreats := strengthenAll s.activeThreats }
      else s).crisisDiscard = s.crisisDiscard := by
  split
  all_goals rfl

theorem resolveCrisis_deckEq (crisis : CrisisCard) (o : Oracle) (st : GameState) :
    (resolveCrisis crisis o st).crisisDeck = st.crisisDeck := by
  unfold resolveCrisis
  dsimp only
  rw [rcStage3_deck, rcStage2_deck, rcStage1_deck]

theorem resolveCrisis_discEq (crisis : CrisisCard) (o : Oracle) (st : GameState) :
    (resolveCrisis crisis o st).crisisDiscard = st.crisisDiscard := by
  unfold resolveCrisis
  dsimp only
  rw [rcStage3_disc, rcStage2_disc, rcStage1_disc]

theorem drawCrisisCard_total (shuffleC : List CrisisCard → List CrisisCard)
    (hlen : ∀ l, (shuffleC l).length = l.length) (o : Oracle) (st : GameState) :
    (¬ (st.crisisDeck = [] ∧ st.crisisDiscard = []) →
      totalCrisisCards (drawCrisisCard shuffleC o st) = totalCrisisCards st) ∧
    (st.crisisDeck = [] → st.crisisDiscard = [] →
      totalCrisisCards (drawCrisisCard shuffleC o st) = totalCrisisCards st + 1) := by
  unfold drawCrisisCard
  by_cases hde : st.crisisDeck.isEmpty = true ∧ ¬ st.crisisDiscard.isEmpty = true
  · rw [if_pos hde]
    dsimp only
    have h0 : st.crisisDeck = [] := List.isEmpty_iff.mp hde.1
    have hdne : st.crisisDiscard ≠ [] := fun hx => hde.2 (by rw [hx]; rfl)
    have hpos : 0 < st.crisisDiscard.length := List.length_pos.mpr hdne
    have hsne : ¬ (shuffleC st.crisisDiscard).isEmpty = true := by
      intro hx
      have hx2 := List.isEmpty_iff.mp hx
      have h2 := hlen st.crisisDiscard
      rw [hx2] at h2
      simp at h2
      omega
    rw [if_neg hsne]
    cases hs : shuffleC st.crisisDiscard with
    | nil => exact absurd (by rw [hs]; rfl) hsne
    | cons c rest =>
      constructor
      · intro hnb
        dsimp only
        unfold totalCrisisCards
        rw [resolveCrisis_deckEq, resolveCrisis_discEq]
        dsimp only
        have h2 := hlen st.crisisDiscard
        rw [hs] at h2
        rw [h0]
        simp only [List.length_cons, List.length_nil, List.nil_append,
          List.length_singleton] at h2 ⊢
        omega
      · intro h1 h2x
        exact absurd h2x hdne
  · rw [if_neg hde]
    dsimp only
    by_cases hde2 : st.crisisDeck.isEmpty = true
    · rw [if_pos hde2]
      dsimp only
      have h0 : st.crisisDeck = [] := List.isEmpty_iff.mp hde2
      have h1 : st.crisisDiscard = [] := by
        by_contra hx
        exact hde ⟨hde2, fun hy => hx (List.isEmpty_iff.mp hy)⟩
      constructor
      · intro hnb
        exact absurd ⟨h0, h1⟩ hnb
      · intro _ _
        unfold totalCrisisCards
        rw [resolveCrisis_deckEq, resolveCrisis_discEq]
        dsimp only
        rw [h0, h1]
        rfl
    · rw [if_neg hde2]
      have hdne : st.crisisDeck ≠ [] := fun hx => hde2 (by rw [hx]; rfl)
      cases hd : st.crisisDeck with
      | nil => exact absurd hd hdne
      | cons c rest =>
        constructor
        · intro hnb
          dsimp only
          unfold totalCrisisCards
          rw [resolveCrisis_deckEq, resolveCrisis_discEq]
          dsimp only
          rw [hd]
          simp only [List.length_cons, List.length_append, List.length_singleton,
            List.length_nil]
          omega
        · intro hx _
          exact (List.cons_ne_nil c rest hx).elim

end CID

/-- C4, counterexample.  Drawing a player card is NOT conservative when
the card is an Epidemic: `play_turn` pops it from the deck but never
appends it to any hand or to the player discard pile, so the total
player-card count drops from 2 to 1 and the discard pile stays empty -
card destruction outside the claim's single documented exception (the
synthesized default crisis card). -/
theorem C4_deck_conservation_counterexample :
    Pandemic.totalPlayerCards c4EpiSt = 2 ∧
    (Pandemic.drawPlayerCardStep twoCityReg id 10 c4EpiSt).2 =
      Pandemic.DrawResult.epidemic ∧
    Pandemic.totalPlayerCards (Pandemic.drawPlayerCardStep twoCityReg id 10 c4EpiSt).1 = 1 ∧
    (Pandemic.drawPlayerCardStep twoCityReg id 10 c4EpiSt).1.playerDiscard = [] := by
  refine ⟨by decide, by decide, by decide, by decide⟩

/-- C4, amended.  Card-count conservation with the exceptions the code
actually has.  (1) Pandemic draw phase, one draw (index in range,
length-preserving reshuffle): the draw either reports an empty deck and
leaves the state unchanged, or resolves an Epidemic - the Epidemic card
leaves play, the player-card total drops by exactly 1 and the
infection-card total is conserved - or adds the drawn card to the hand
(discarding over the 7-card limit into the player discard), conserving
both totals.  (2) Every `_apply_action` intent conserves the
player-card total, the cure provided its submitted card list is
duplicate-free.  (3) Each infection-phase draw conserves both totals.
(4) Captain-is-Dead `draw_crisis_card` conserves the crisis-card total
whenever the deck or the discard pile is nonempty, and synthesizes one
extra card (total + 1) exactly when both are empty. -/
theorem C4_deck_conservation_amended :
    (∀ (reg : Pandemic.Registry)
        (shuffleI : List Pandemic.InfectionCard → List Pandemic.InfectionCard),
      (∀ l, (shuffleI l).length = l.length) →
      ∀ (fuel : Nat) (st : Pandemic.GameState),
        st.currentPlayerIndex < st.players.length →
        (((Pandemic.drawPlayerCardStep reg shuffleI fuel st).2 =
            Pandemic.DrawResult.deckEmpty ∧
          (Pandemic.drawPlayerCardStep reg shuffleI fuel st).1 = st) ∨
        ((Pandemic.drawPlayerCardStep reg shuffleI fuel st).2 =
            Pandemic.DrawResult.epidemic ∧
          Pandemic.totalPlayerCards
              (Pandemic.drawPlayerCardStep reg shuffleI fuel st).1 + 1 =
            Pandemic.totalPlayerCards st ∧
          Pandemic.totalInfectionCards
              (Pandemic.drawPlayerCardStep reg shuffleI fuel st).1 =
            Pandemic.totalInfectionCards st) ∨
        ((∃ name, (Pandemic.drawPlayerCardStep reg shuffleI fuel st).2 =
            Pandemic.DrawResult.drew name) ∧
          Pandemic.totalPlayerCards
              (Pandemic.drawPlayerCardStep reg shuffleI fuel st).1 =
            Pandemic.totalPlayerCards st ∧
          Pandemic.totalInfectionCards
              (Pandemic.drawPlayerCardStep reg shuffleI fuel st).1 =
            Pandemic.totalInfectionCards st))) ∧
    (∀ (reg : Pandemic.Registry) (st : Pandemic.GameState) (a : Pandemic.PAction),
      st.currentPlayerIndex < st.players.length →
      (∀ cs cards, a = Pandemic.PAction.discoverCure cs cards → cards.Nodup) →
      Pandemic.totalPlayerCards (Pandemic.applyAction reg st a).1 =
        Pandemic.totalPlayerCards st) ∧
    (∀ (reg : Pandemic.Registry)
        (shuffleI : List Pandemic.InfectionCard → List Pandemic.InfectionCard),
      (∀ l, (shuffleI l).length = l.length) →
      ∀ (fuel : Nat) (st : Pandemic.GameState),
        Pandemic.totalPlayerCards (Pandemic.infectOne reg shuffleI fuel st).1 =
          Pandemic.totalPlayerCards st ∧
        Pandemic.totalInfectionCards (Pandemic.infectOne reg shuffleI fuel st).1 =
          Pandemic.totalInfectionCards st) ∧
    (∀ (shuffleC : List CID.CrisisCard → List CID.CrisisCard),
      (∀ l, (shuffleC l).length = l.length) →
      ∀ (o : CID.Oracle) (st : CID.GameState),
        (¬ (st.crisisDeck = [] ∧ st.crisisDiscard = []) →
          CID.totalCrisisCards (CID.drawCrisisCard shuffleC o st) =
            CID.totalCrisisCards st) ∧
        (st.crisisDeck = [] → st.crisisDiscard = [] →
          CID.totalCrisisCards (CID.drawCrisisCard shuffleC o st) =
            CID.totalCrisisCards st + 1)) := by
  refine ⟨?_, ?_, ?_, ?_⟩
  · intro reg shuffleI hlen fuel st hidx
    exact Pandemic.drawStep_trichotomy reg shuffleI hlen fuel st hidx
  · intro reg st a hidx hnodup
    exact Pandemic.applyAction_cards reg st a hidx hnodup
  · intro reg shuffleI hlen fuel st
    exact Pandemic.infectOne_cards reg shuffleI hlen fuel st
  · intro shuffleC hlen o st
    exact CID.drawCrisisCard_total shuffleC hlen o st

/-- C4, witness: the amended trichotomy applied to the concrete
two-player state: a regular draw of card `B` conserves the totals. -/
theorem C4_deck_conservation_amended_witness :
    (∀ l : List Pandemic.InfectionCard, (id l).length = l.length) ∧
    pandTwoPlayerSt.currentPlayerIndex < pandTwoPlayerSt.players.length ∧
    (((Pandemic.drawPlayerCardStep twoCityReg id 10 pandTwoPlayerSt).2 =
        Pandemic.DrawResult.deckEmpty ∧
      (Pandemic.drawPlayerCardStep twoCityReg id 10 pandTwoPlayerSt).1 =
        pandTwoPlayerSt) ∨
    ((Pandemic.drawPlayerCardStep twoCityReg id 10 pandTwoPlayerSt).2 =
        Pandemic.DrawResult.epidemic ∧
      Pandemic.totalPlayerCards
          (Pandemic.drawPlayerCardStep twoCityReg id 10 pandTwoPlayerSt).1 + 1 =
        Pandemic.totalPlayerCards pandTwoPlayerSt ∧
      Pandemic.totalInfectionCards
          (Pandemic.drawPlayerCardStep twoCityReg id 10 pandTwoPlayerSt).1 =
        Pandemic.totalInfectionCards pandTwoPlayerSt) ∨
    ((∃ name, (Pandemic.drawPlayerCardStep twoCityReg id 10 pandTwoPlayerSt).2 =
        Pandemic.DrawResult.drew name) ∧
      Pandemic.totalPlayerCards
          (Pandemic.drawPlayerCardStep twoCityReg id 10 pandTwoPlayerSt).1 =
        Pandemic.totalPlayerCards pandTwoPlayerSt ∧
      Pandemic.totalInfectionCards
          (Pandemic.drawPlayerCardStep twoCityReg id 10 pandTwoPlayerSt).1 =
        Pandemic.totalInfectionCards pandTwoPlayerSt)) :=
  ⟨fun l => rfl, by decide,
    C4_deck_conservation_amended.1 twoCityReg id (fun l => rfl) 10 pandTwoPlayerSt
      (by decide)⟩

end Spec2Proof
